import Mathlib

/-!
Verification development for the trueprofit NLQ pipeline (Go backend).

Shallow embedding of the NLQ SQL validator (backend/internal/nlq/sql_validator.go),
the self-correction controller, the DynamoDB result cache key construction, the
Athena result shaping, and the /ask handler control flow.

Strings are modelled as lists of characters.  Go lowercasing and whitespace
trimming are modelled for ASCII input (the Go functions additionally handle
Unicode whitespace and case folding, which never occurs in the inputs relevant
here).  The Go regular expressions of the validator are hand-compiled into
deterministic scanners over character lists; each scanner is documented with
the regular expression it implements, and the compilation is deterministic
because the alternations and optional groups of those expressions are
prefix-disjoint from their continuations.
-/

namespace TrueProfit

abbrev Str := List Char

/-- The single quote character, used by the SQL literal scanners. -/
def quoteChar : Char := Char.ofNat 39

/-- ASCII whitespace as trimmed by Go strings.TrimSpace and strings.Fields
(unicode.IsSpace restricted to ASCII). -/
def isGoSpace (c : Char) : Bool :=
  c = ' ' || c = Char.ofNat 9 || c = Char.ofNat 10 || c = Char.ofNat 11 ||
  c = Char.ofNat 12 || c = Char.ofNat 13

/-- Character class of the regexp escape for whitespace in RE2 (Go regexp):
tab, newline, form feed, carriage return, space.  Note vertical tab is not
included, unlike unicode.IsSpace. -/
def isReSpace (c : Char) : Bool :=
  c = ' ' || c = Char.ofNat 9 || c = Char.ofNat 10 ||
  c = Char.ofNat 12 || c = Char.ofNat 13

/-- ASCII lowercasing of one character (strings.ToLower restricted to ASCII). -/
def toLowerChar (c : Char) : Char :=
  if 'A' ≤ c ∧ c ≤ 'Z' then Char.ofNat (c.toNat + 32) else c

/-- strings.ToLower restricted to ASCII. -/
def lowerStr (s : Str) : Str := s.map toLowerChar

/-- strings.TrimSpace restricted to ASCII. -/
def trimStr (s : Str) : Str :=
  ((s.dropWhile isGoSpace).reverse.dropWhile isGoSpace).reverse

/-- strings.Contains: does the pattern p occur as a contiguous substring of l. -/
def containsB (p : Str) : Str → Bool
  | [] => p.isEmpty
  | c :: t => p.isPrefixOf (c :: t) || containsB p t

/-- Word characters of the regexp word-boundary assertion: ASCII letters,
digits and underscore. -/
def isWordChar (c : Char) : Bool :=
  ('a' ≤ c && c ≤ 'z') || ('A' ≤ c && c ≤ 'Z') || ('0' ≤ c && c ≤ '9') || c = '_'

/-- A word boundary holds before the current position when the previous
character (if any) is not a word character. -/
def boundaryBefore : Option Char → Bool
  | none => true
  | some c => !isWordChar c

/-- The word w (a nonempty all-word-character string) occurs at the head of s
with a word boundary after it. -/
def wordAtHead (w : Str) (s : Str) : Bool :=
  w.isPrefixOf s &&
    (match s.drop w.length with
     | [] => true
     | c :: _ => !isWordChar c)

/-- Last character of (prefix consumed so far), where prev is the character
just before that prefix. -/
def lastO (prev : Option Char) : Str → Option Char
  | [] => prev
  | c :: t => lastO (some c) t

/-- Scan helper for the boundary-anchored word containment test: prev is the
character preceding the current suffix. -/
def containsWordFrom (w : Str) : Option Char → Str → Bool
  | _, [] => false
  | prev, c :: t =>
    (boundaryBefore prev && wordAtHead w (c :: t)) || containsWordFrom w (some c) t

/-- regexp.MatchString of a word-bounded word (the Go pattern is backslash-b
w backslash-b): w occurs in s delimited by word boundaries. -/
def containsWord (w s : Str) : Bool := containsWordFrom w none s

/-- Generic leftmost match search: f receives the character preceding the
current suffix and the suffix; the first position where f succeeds wins.
This is the leftmost-match semantics of Go regexp FindStringSubmatch for the
scanners below, which are deterministic at a fixed start position. -/
def findFirstP {α : Type} (f : Option Char → Str → Option α) :
    Option Char → Str → Option α
  | _, [] => none
  | prev, c :: t =>
    match f prev (c :: t) with
    | some x => some x
    | none => findFirstP f (some c) t

/-! ### Calendar dates

Dates are modelled as day numbers (days since 1970-01-01) computed by the
standard civil-calendar conversion; Go time.Time values at midnight UTC
compare (Before) exactly as their day numbers compare. -/

def isDigitB (c : Char) : Bool := '0' ≤ c && c ≤ '9'

def digitVal (c : Char) : Nat := c.toNat - 48

/-- Gregorian leap year (as in the Go time package, for nonnegative years). -/
def isLeap (y : Int) : Bool := y % 4 = 0 && (y % 100 ≠ 0 || y % 400 = 0)

def daysInMonth (y : Int) (m : Int) : Int :=
  if m = 1 then 31 else if m = 2 then (if isLeap y then 29 else 28)
  else if m = 3 then 31 else if m = 4 then 30 else if m = 5 then 31
  else if m = 6 then 30 else if m = 7 then 31 else if m = 8 then 31
  else if m = 9 then 30 else if m = 10 then 31 else if m = 11 then 30
  else 31

/-- Validity of a civil date as checked by Go time.Parse with layout
2006-01-02: month in 1..12 and day in 1..(length of month). -/
def dateOk (y m d : Int) : Bool :=
  1 ≤ m && m ≤ 12 && 1 ≤ d && d ≤ daysInMonth y m

/-- Day number of a civil date (days since 1970-01-01, proleptic Gregorian). -/
def rataDie (y m d : Int) : Int :=
  let y2 : Int := if m ≤ 2 then y - 1 else y
  let era : Int := y2.fdiv 400
  let yoe : Int := y2 - era * 400
  let mp : Int := (m + 9) % 12
  let doy : Int := (153 * mp + 2).fdiv 5 + d - 1
  let doe : Int := yoe * 365 + yoe.fdiv 4 - yoe.fdiv 100 + doy
  era * 146097 + doe - 719468

/-- Inverse of rataDie: civil date of a day number. -/
def civilFromDays (z0 : Int) : Int × Int × Int :=
  let z : Int := z0 + 719468
  let era : Int := z.fdiv 146097
  let doe : Int := z - era * 146097
  let yoe : Int := (doe - doe.fdiv 1460 + doe.fdiv 36524 - doe.fdiv 146096).fdiv 365
  let y : Int := yoe + era * 400
  let doy : Int := doe - (365 * yoe + yoe.fdiv 4 - yoe.fdiv 100)
  let mp : Int := (5 * doy + 2).fdiv 153
  let d : Int := doy - (153 * mp + 2).fdiv 5 + 1
  let m : Int := if mp < 10 then mp + 3 else mp - 9
  (if m ≤ 2 then y + 1 else y, m, d)

/-- Parse a ten character string of shape YYYY-MM-DD into year, month, day. -/
def parseYMD : Str → Option (Int × Int × Int)
  | [y1, y2, y3, y4, h1, m1, m2, h2, d1, d2] =>
    if h1 = '-' && h2 = '-' && [y1, y2, y3, y4, m1, m2, d1, d2].all isDigitB then
      some (((digitVal y1) * 1000 + (digitVal y2) * 100 + (digitVal y3) * 10 + digitVal y4 : Nat),
            ((digitVal m1) * 10 + digitVal m2 : Nat),
            ((digitVal d1) * 10 + digitVal d2 : Nat))
    else none
  | _ => none

/-- Go time.Parse with layout 2006-01-02: succeeds on a valid YYYY-MM-DD
string, yielding the day number of the parsed date. -/
def parseDateRD (s : Str) : Option Int :=
  match parseYMD s with
  | some (y, m, d) => if dateOk y m d then some (rataDie y m d) else none
  | none => none

/-- Go time.Parse with the error ignored: an invalid string parses to the
zero time (January 1 of year 1). -/
def parseRDorZero (s : Str) : Int :=
  (parseDateRD s).getD (rataDie 1 1 1)

/-- Left-pad a digit string with zeros to the given width. -/
def padDigits (w : Nat) (ds : List Char) : List Char :=
  List.replicate (w - ds.length) '0' ++ ds

/-- Go time Format with layout 2006-01-02 of a day number (years 0..9999). -/
def formatRD (rd : Int) : String :=
  let (y, m, d) := civilFromDays rd
  String.mk (padDigits 4 (Nat.toDigits 10 y.toNat) ++ ['-'] ++
             padDigits 2 (Nat.toDigits 10 m.toNat) ++ ['-'] ++
             padDigits 2 (Nat.toDigits 10 d.toNat))

/-! ### Hand-compiled scanners for the validator regular expressions -/

/-- Consume one or more regexp whitespace characters (greedy), failing when
none is present. -/
def skipSpaces0 : Str → Str
  | [] => []
  | c :: t => if isReSpace c then skipSpaces0 t else c :: t

def skipSpaces1 : Str → Option Str
  | [] => none
  | c :: t => if isReSpace c then some (skipSpaces0 t) else none

/-- Consume a literal string. -/
def litP (lit : Str) (s : Str) : Option Str :=
  if lit.isPrefixOf s then some (s.drop lit.length) else none

/-- Consume the optional group (date followed by whitespace).  The group is
followed by a quote in every use site, so taking the group whenever the word
date is present is exactly the backtracking behaviour of the regexp. -/
def optDateP (s : Str) : Option Str :=
  match litP "date".data s with
  | some r => skipSpaces1 r
  | none => some s

/-- Consume a quoted date: quote, four digits, dash, two digits, dash, two
digits, quote; yields the digit string (without quotes) and the rest. -/
def quotedDateP : Str → Option (Str × Str)
  | q1 :: y1 :: y2 :: y3 :: y4 :: h1 :: m1 :: m2 :: h2 :: d1 :: d2 :: q2 :: rest =>
    if q1 = quoteChar && q2 = quoteChar && h1 = '-' && h2 = '-' &&
       [y1, y2, y3, y4, m1, m2, d1, d2].all isDigitB then
      some ([y1, y2, y3, y4, '-', m1, m2, '-', d1, d2], rest)
    else none
  | _ => none

/-- Match at the current position the pattern

  word-bounded dt, whitespace, between, whitespace, optional date keyword,
  quoted date, whitespace, and, whitespace, optional date keyword, quoted date

(the betweenRe of requireBoundedDTPredicate); yields the two date strings.
The word boundary after dt is subsumed by the mandatory whitespace. -/
def matchBetweenAt (prev : Option Char) (s : Str) : Option (Str × Str) :=
  if boundaryBefore prev then
    match litP "dt".data s with
    | none => none
    | some r1 =>
      match skipSpaces1 r1 with
      | none => none
      | some r2 =>
        match litP "between".data r2 with
        | none => none
        | some r3 =>
          match skipSpaces1 r3 with
          | none => none
          | some r4 =>
            match optDateP r4 with
            | none => none
            | some r5 =>
              match quotedDateP r5 with
              | none => none
              | some (st, r6) =>
                match skipSpaces1 r6 with
                | none => none
                | some r7 =>
                  match litP "and".data r7 with
                  | none => none
                  | some r8 =>
                    match skipSpaces1 r8 with
                    | none => none
                    | some r9 =>
                      match optDateP r9 with
                      | none => none
                      | some r10 =>
                        match quotedDateP r10 with
                        | none => none
                        | some (en, _) => some (st, en)
  else none

/-- Match at the current position the pattern

  word-bounded dt, optional whitespace, greater-equal or greater, optional
  whitespace, optional date keyword, quoted date

(the geRe of requireBoundedDTPredicate); yields the date string.  The
alternation prefers the two character operator, matching regexp preference
order; the two branches are first-character disjoint so this is exact. -/
def matchGeAt (prev : Option Char) (s : Str) : Option Str :=
  if boundaryBefore prev then
    match litP "dt".data s with
    | none => none
    | some r1 =>
      match r1 with
      | c :: _ => if isWordChar c then none else matchGeTail r1
      | [] => none
  else none
where
  matchGeTail (r1 : Str) : Option Str :=
    let r2 := skipSpaces0 r1
    match (litP ">=".data r2).orElse (fun _ => litP ">".data r2) with
    | none => none
    | some r3 =>
      let r4 := skipSpaces0 r3
      match optDateP r4 with
      | none => none
      | some r5 =>
        match quotedDateP r5 with
        | none => none
        | some (st, _) => some st

/-- First alternative of the shop predicate pattern: word-bounded shop_id,
optional whitespace, equals or the word in, optional whitespace, opening
parenthesis, any characters other than a closing parenthesis (captured),
closing parenthesis.  Yields the capture and the rest. -/
def shopAlt1 (s : Str) : Option (Str × Str) :=
  match litP "shop_id".data s with
  | none => none
  | some r1 =>
    match r1 with
    | c :: _ =>
      if isWordChar c then none
      else
        let r2 := skipSpaces0 r1
        match (litP "=".data r2).orElse (fun _ => litP "in".data r2) with
        | none => none
        | some r3 =>
          let r4 := skipSpaces0 r3
          match r4 with
          | c2 :: r5 =>
            if c2 = '(' then
              let inside := r5.takeWhile (fun c3 => c3 ≠ ')')
              match r5.dropWhile (fun c3 => c3 ≠ ')') with
              | _ :: r6 => some (inside, r6)
              | [] => none
            else none
          | [] => none
    | [] => none

/-- Second alternative of the shop predicate pattern: word-bounded shop_id,
optional whitespace, equals, optional whitespace, quote, any characters other
than a quote (captured), quote. -/
def shopAlt2 (s : Str) : Option (Str × Str) :=
  match litP "shop_id".data s with
  | none => none
  | some r1 =>
    match r1 with
    | c :: _ =>
      if isWordChar c then none
      else
        let r2 := skipSpaces0 r1
        match litP "=".data r2 with
        | none => none
        | some r3 =>
          let r4 := skipSpaces0 r3
          match r4 with
          | q1 :: r5 =>
            if q1 = quoteChar then
              let val := r5.takeWhile (fun c3 => c3 ≠ quoteChar)
              match r5.dropWhile (fun c3 => c3 ≠ quoteChar) with
              | _ :: r6 => some (val, r6)
              | [] => none
            else none
          | [] => none
    | [] => none

/-- One match of the shop predicate regexp at the current position: the first
alternative is preferred (leftmost-first semantics); yields the capture pair
(group 2, group 3, one of them empty as in Go submatches) and the length of
the whole match, used to continue the global scan after the match. -/
def shopMatchAt (prev : Option Char) (s : Str) : Option ((Str × Str) × Nat) :=
  if boundaryBefore prev then
    match shopAlt1 s with
    | some (m2, rest) => some ((m2, []), s.length - rest.length)
    | none =>
      match shopAlt2 s with
      | some (m3, rest) => some (([], m3), s.length - rest.length)
      | none => none
  else none

/-- FindAllStringSubmatch of the shop predicate regexp: non-overlapping
leftmost matches, each scan resuming after the end of the previous match.
The fuel argument bounds the recursion; matches are nonempty so fuel equal to
the length of the input suffices. -/
def findAllShopAux (fuel : Nat) (prev : Option Char) (s : Str) : List (Str × Str) :=
  match fuel with
  | 0 => []
  | fuel + 1 =>
    match s with
    | [] => []
    | c :: t =>
      match shopMatchAt prev (c :: t) with
      | some (m, len) =>
        m :: findAllShopAux fuel (lastO prev ((c :: t).take len)) ((c :: t).drop len)
      | none => findAllShopAux fuel (some c) t

def findAllShop (s : Str) : List (Str × Str) := findAllShopAux s.length none s

/-- FindAllStringSubmatch of the quoted value pattern (quote, capture of any
characters other than a quote, quote) used on the inside of an IN list. -/
def quoteFindAll (fuel : Nat) (s : Str) : List Str :=
  match fuel with
  | 0 => []
  | fuel + 1 =>
    match s with
    | [] => []
    | c :: t =>
      if c = quoteChar then
        let val := t.takeWhile (fun c2 => c2 ≠ quoteChar)
        match t.dropWhile (fun c2 => c2 ≠ quoteChar) with
        | _ :: rest => val :: quoteFindAll fuel rest
        | [] => []
      else quoteFindAll fuel t

/-! ### The SQL validator (sql_validator.go) -/

structure ValidateOptions where
  AllowedShopIDs : List String
  RequireDTFilter : Bool
  MaxDaysLookback : Int
  TodayISO : String
deriving DecidableEq

/-- The blocked keyword list of ValidateSQL; note every entry carries a
trailing space, and the check is a plain substring test. -/
def blockList : List Str :=
  ["insert ", "update ", "delete ", "merge ", "drop ", "alter ", "create ",
   "truncate ", "grant ", "revoke ", "call ", "execute ", "prepare ",
   "deallocate "].map String.data

/-- requireBoundedDTPredicate: dt must be filtered with a lower bound not
older than maxDays before today. -/
def requireBoundedDTPredicate (lowSQL : Str) (todayISO : Str) (maxDays : Int) :
    Except String Unit :=
  match parseDateRD todayISO with
  | none => .error "invalid TodayISO"
  | some todayRD =>
    let minAllowed := todayRD - maxDays
    match findFirstP matchBetweenAt none lowSQL with
    | some (st, _) =>
      match parseDateRD st with
      | none => .error "dt BETWEEN has invalid start date"
      | some sRD =>
        if sRD < minAllowed then .error "dt lookback too large" else .ok ()
    | none =>
      match findFirstP matchGeAt none lowSQL with
      | some st =>
        match parseDateRD st with
        | none => .error "dt lower bound invalid"
        | some sRD =>
          if sRD < minAllowed then .error "dt lookback too large" else .ok ()
      | none =>
        if containsWord "dt".data lowSQL then
          .error "dt filter must include a lower bound"
        else .error "missing required dt filter"

/-- Check of the values of one IN list against the allowlist. -/
def checkInVals (allow : List Str) : List Str → Except String Unit
  | [] => .ok ()
  | v :: vs =>
    if allow.contains (lowerStr (trimStr v)) then checkInVals allow vs
    else .error "shop_id value not allowed"

/-- The loop of requireAllowedShopFilter over the regexp matches.  Note the
source returns nil immediately after validating the first match that carries
a nonempty capture; later shop_id predicates are never inspected. -/
def shopLoop (allow : List Str) : List (Str × Str) → Except String Unit
  | [] => .error "unable to validate shop_id predicate"
  | (m2, m3) :: rest =>
    if trimStr m2 ≠ [] then
      match quoteFindAll m2.length m2 with
      | [] => .error "shop_id IN list must contain quoted values"
      | v :: vs => checkInVals allow (v :: vs)
    else if trimStr m3 ≠ [] then
      if allow.contains (lowerStr (trimStr m3)) then .ok ()
      else .error "shop_id value not allowed"
    else shopLoop allow rest

/-- requireAllowedShopFilter of sql_validator.go. -/
def requireAllowedShopFilter (lowSQL : Str) (allowed : List String) :
    Except String Unit :=
  if containsWord "shop_id".data lowSQL then
    let allow := allowed.map (fun v => lowerStr (trimStr v.data))
    match findAllShop lowSQL with
    | [] => .error "shop_id filter must be equality or IN list"
    | m :: ms => shopLoop allow (m :: ms)
  else .error "missing required shop_id filter"

/-- Effective lookback: ValidateSQL replaces a nonpositive MaxDaysLookback
with 90. -/
def effMaxDays (opt : ValidateOptions) : Int :=
  if opt.MaxDaysLookback ≤ 0 then 90 else opt.MaxDaysLookback

/-- Effective today: ValidateSQL falls back to the current UTC date (modelled
by the clock argument) when TodayISO is blank. -/
def effToday (clock : String) (opt : ValidateOptions) : String :=
  if trimStr opt.TodayISO.data = [] then clock else opt.TodayISO

/-- ValidateSQL of sql_validator.go.  The clock argument stands for the UTC
date the Go code reads from the system clock when TodayISO is blank. -/
def ValidateSQL (clock : String) (sql : String) (opt : ValidateOptions) :
    Except String Unit :=
  let s := trimStr sql.data
  if s = [] then .error "empty sql"
  else
    let low := lowerStr s
    if containsB ";".data low then .error "semicolon not allowed"
    else if containsB "--".data low || containsB "/*".data low ||
            containsB "*/".data low then .error "comments not allowed"
    else if !("select".data.isPrefixOf (trimStr low) ||
              "with".data.isPrefixOf (trimStr low)) then
      .error "only SELECT queries are allowed"
    else
      match blockList.find? (fun kw => containsB kw low) with
      | some _ => .error "disallowed keyword"
      | none =>
        match (if opt.RequireDTFilter then
                 requireBoundedDTPredicate low (effToday clock opt).data
                   (effMaxDays opt)
               else .ok ()) with
        | .error e => .error e
        | .ok _ =>
          if opt.AllowedShopIDs ≠ [] then
            requireAllowedShopFilter low opt.AllowedShopIDs
          else if containsWord "shop_id".data low then .ok ()
          else .error "missing required shop_id filter"

/-- Lowercased trimmed form of a SQL string, as computed by ValidateSQL. -/
def lowOf (sql : String) : Str := lowerStr (trimStr sql.data)

/-- A dt lower-bound predicate of one of the validator-matched forms occurs
somewhere in low, with a start date that parses and is at least minA. -/
def dtLowerBoundOcc (low : Str) (minA : Int) : Prop :=
  (∃ a t st en, low = a ++ t ∧ matchBetweenAt (lastO none a) t = some (st, en) ∧
      ∃ r, parseDateRD st = some r ∧ minA ≤ r) ∨
  (∃ a t st, low = a ++ t ∧ matchGeAt (lastO none a) t = some st ∧
      ∃ r, parseDateRD st = some r ∧ minA ≤ r)

/-! ### SHA-256 (crypto/sha256)

Bytes and 32-bit words are Nat with explicit reduction modulo 2 to the 32.
Only ASCII strings are hashed in this development, so the byte sequence of a
Go string is the list of character codes. -/

def w32 (n : Nat) : Nat := n % 4294967296

def rotr32 (x k : Nat) : Nat := w32 ((x >>> k) ||| (x <<< (32 - k)))

def shaCh (x y z : Nat) : Nat := (x &&& y) ^^^ ((x ^^^ 4294967295) &&& z)

def shaMaj (x y z : Nat) : Nat := (x &&& y) ^^^ (x &&& z) ^^^ (y &&& z)

def bigSigma0 (x : Nat) : Nat := rotr32 x 2 ^^^ rotr32 x 13 ^^^ rotr32 x 22

def bigSigma1 (x : Nat) : Nat := rotr32 x 6 ^^^ rotr32 x 11 ^^^ rotr32 x 25

def smallSigma0 (x : Nat) : Nat := rotr32 x 7 ^^^ rotr32 x 18 ^^^ (x >>> 3)

def smallSigma1 (x : Nat) : Nat := rotr32 x 17 ^^^ rotr32 x 19 ^^^ (x >>> 10)

/-- The SHA-256 round constants (decimal rendering of the standard
table). -/
def shaK : List Nat :=
  [1116352408, 1899447441, 3049323471, 3921009573,
   961987163, 1508970993, 2453635748, 2870763221,
   3624381080, 310598401, 607225278, 1426881987,
   1925078388, 2162078206, 2614888103, 3248222580,
   3835390401, 4022224774, 264347078, 604807628,
   770255983, 1249150122, 1555081692, 1996064986,
   2554220882, 2821834349, 2952996808, 3210313671,
   3336571891, 3584528711, 113926993, 338241895,
   666307205, 773529912, 1294757372, 1396182291,
   1695183700, 1986661051, 2177026350, 2456956037,
   2730485921, 2820302411, 3259730800, 3345764771,
   3516065817, 3600352804, 4094571909, 275423344,
   430227734, 506948616, 659060556, 883997877,
   958139571, 1322822218, 1537002063, 1747873779,
   1955562222, 2024104815, 2227730452, 2361852424,
   2428436474, 2756734187, 3204031479, 3329325298]

/-- The SHA-256 initial hash value (decimal rendering). -/
def shaH0 : List Nat :=
  [1779033703, 3144134277, 1013904242, 2773480762,
   1359893119, 2600822924, 528734635, 1541459225]

/-- Eight big-endian bytes of a 64-bit length value. -/
def lenBE8 (n : Nat) : List Nat :=
  [(n >>> 56) % 256, (n >>> 48) % 256, (n >>> 40) % 256, (n >>> 32) % 256,
   (n >>> 24) % 256, (n >>> 16) % 256, (n >>> 8) % 256, n % 256]

/-- SHA-256 padding: append 0x80, zeros to 56 mod 64, and the bit length. -/
def padBytes (msg : List Nat) : List Nat :=
  let L := msg.length
  let padZeros := (64 - ((L + 9) % 64)) % 64
  msg ++ [128] ++ List.replicate padZeros 0 ++ lenBE8 (L * 8)

/-- Split a byte list into 64-byte blocks; the fuel bounds the recursion and
any value at least the length of the list is sufficient. -/
def splitBlocks : Nat → List Nat → List (List Nat)
  | 0, _ => []
  | _, [] => []
  | fuel + 1, l => l.take 64 :: splitBlocks fuel (l.drop 64)

/-- Big-endian conversion of groups of four bytes into 32-bit words. -/
def bytesToWords : List Nat → List Nat
  | a :: b :: c :: d :: rest =>
    (((a * 256 + b) * 256 + c) * 256 + d) :: bytesToWords rest
  | _ => []

/-- Message schedule: extend sixteen words to sixty-four. -/
def schedExtend : Nat → List Nat → List Nat
  | 0, w => w
  | fuel + 1, w =>
    let n := w.length
    schedExtend fuel (w ++ [w32 (smallSigma1 (w.getD (n - 2) 0) +
      w.getD (n - 7) 0 + smallSigma0 (w.getD (n - 15) 0) + w.getD (n - 16) 0)])

/-- One SHA-256 round on the eight-word working state. -/
def shaRound (st : Nat × Nat × Nat × Nat × Nat × Nat × Nat × Nat)
    (kw : Nat × Nat) : Nat × Nat × Nat × Nat × Nat × Nat × Nat × Nat :=
  match st, kw with
  | (a, b, c, d, e, f, g, h), (k, wt) =>
    let t1 := w32 (h + bigSigma1 e + shaCh e f g + k + wt)
    let t2 := w32 (bigSigma0 a + shaMaj a b c)
    (w32 (t1 + t2), a, b, c, w32 (d + t1), e, f, g)

/-- Compression of one 64-byte block into the running hash. -/
def shaCompress (hs : List Nat) (block : List Nat) : List Nat :=
  let ws := schedExtend 48 (bytesToWords block)
  let st0 := (hs.getD 0 0, hs.getD 1 0, hs.getD 2 0, hs.getD 3 0,
              hs.getD 4 0, hs.getD 5 0, hs.getD 6 0, hs.getD 7 0)
  match (shaK.zip ws).foldl shaRound st0 with
  | (a, b, c, d, e, f, g, h) =>
    [w32 (hs.getD 0 0 + a), w32 (hs.getD 1 0 + b), w32 (hs.getD 2 0 + c),
     w32 (hs.getD 3 0 + d), w32 (hs.getD 4 0 + e), w32 (hs.getD 5 0 + f),
     w32 (hs.getD 6 0 + g), w32 (hs.getD 7 0 + h)]

/-- SHA-256 digest of a byte list, as eight 32-bit words. -/
def sha256Words (msg : List Nat) : List Nat :=
  (splitBlocks (msg.length + 73) (padBytes msg)).foldl shaCompress shaH0

/-- Lowercase hexadecimal rendering of one 32-bit word, eight digits. -/
def hex8 (n : Nat) : List Char := padDigits 8 (Nat.toDigits 16 n)

/-- hex.EncodeToString of a SHA-256 digest. -/
def sha256hex (msg : List Nat) : String :=
  String.mk ((sha256Words msg).foldr (fun w acc => hex8 w ++ acc) [])

/-- Byte sequence of an ASCII Go string. -/
def strBytes (s : String) : List Nat := s.data.map Char.toNat

/-! ### The NLQ result cache key (nlq cache source file) -/

structure CacheKey where
  UserSub : String
  Shops : List String
  Question : String
  TodayISO : String
  MaxDays : Int
  SchemaHash : String
deriving DecidableEq

/-- Decimal rendering of an integer, as fmt.Sprintf with the d verb. -/
def intToStr (n : Int) : String :=
  if n < 0 then "-" ++ String.mk (Nat.toDigits 10 (-n).toNat)
  else String.mk (Nat.toDigits 10 n.toNat)

/-- strings.Fields restricted to ASCII: maximal runs of non-whitespace. -/
def fieldsAux (cur : Str) : Str → List Str
  | [] => if cur = [] then [] else [cur.reverse]
  | c :: t =>
    if isGoSpace c then
      if cur = [] then fieldsAux [] t else cur.reverse :: fieldsAux [] t
    else fieldsAux (c :: cur) t

def fieldsGo (s : Str) : List Str := fieldsAux [] s

/-- NormalizeQuestion: lowercase, trim, collapse inner whitespace. -/
def NormalizeQuestion (q : String) : String :=
  let ql := lowerStr (trimStr q.data)
  String.intercalate " " ((fieldsGo ql).map String.mk)

/-- ShopsKey: the source comments say stable order for hashing and small
sort, but no sort is performed; the copied list is joined in given order. -/
def ShopsKey (shops : List String) : String :=
  String.intercalate "," shops

def HashKeyMaterial (s : String) : String := sha256hex (strBytes s)

def MakeCachePK (userSub : String) : String := "USER#" ++ userSub

/-- The key material joined inside MakeCacheSK. -/
def cacheMaterial (k : CacheKey) : String :=
  String.intercalate "|"
    ["shops=" ++ ShopsKey k.Shops, "today=" ++ k.TodayISO,
     "maxdays=" ++ intToStr k.MaxDays, "schema=" ++ k.SchemaHash,
     "q=" ++ NormalizeQuestion k.Question]

def MakeCacheSK (k : CacheKey) : String :=
  "NLQ#" ++ HashKeyMaterial (cacheMaterial k)

def SchemaHash (schemaText : String) : String := HashKeyMaterial schemaText

/-! ### The self-correction controller (ExecuteWithSelfCorrection) -/

/-- A float64 value carried opaquely by its bit pattern.  The modelled code
paths copy these values between records and envelopes and never compute
with them. -/
structure F64 where
  bits : Nat
deriving DecidableEq

/-- A coerced Athena cell value (integer, real, text or null).  A real is
carried as its source text; the modelled code never computes with it. -/
inductive CellV where
  | null
  | intv (v : Int)
  | realv (v : String)
  | strv (v : String)
deriving DecidableEq

/-- The LLMResult struct of the model client (the nlq bedrock source file,
staged as the second document of handlers/summary.go): SQL string,
Confidence float64, Assumptions, NeedsClarification bool, and the nullable
ClarifyingQuestion pointer, modelled as an optional string. -/
structure LLMResult where
  SQL : String
  Confidence : F64
  Assumptions : List String
  NeedsClarification : Bool
  ClarifyingQuestion : Option String
deriving DecidableEq

structure AthenaResultM where
  QueryExecutionID : String
  Columns : List String
  Rows : List (List (String × CellV))
  ScannedBytes : Int
  ExecutionMs : Int
deriving DecidableEq

structure FixSQLRequest where
  OriginalQuestion : String
  SchemaText : String
  AllowedShopIDs : List String
  MaxDaysLookback : Int
  TodayISO : String
  Timezone : String
  PreviousSQL : String
  AthenaError : String

/-- BuildFixPrompt of the controller source file. -/
def BuildFixPrompt (r : FixSQLRequest) : String :=
  let todayRD := parseRDorZero r.TodayISO.data
  let dtMin := formatRD (todayRD - r.MaxDaysLookback)
  let shops0 := String.intercalate ", " r.AllowedShopIDs
  let shops := if shops0 = "" then "(none)" else shops0
  "\nFIX the SQL query.\n\nCRITICAL RULES:\n- Output JSON only.\n- One SELECT only.\n- shop_id must remain inside allowlist [" ++
    shops ++ "].\n- dt MUST have lower bound >= '" ++ dtMin ++
    "'.\n- schema + question must be respected.\n\nSCHEMA:\n" ++
    r.SchemaText ++ "\n\nQUESTION:\n" ++ r.OriginalQuestion ++
    "\n\nPREVIOUS SQL:\n" ++ r.PreviousSQL ++ "\n\nATHENA ERROR:\n" ++
    r.AthenaError ++
    "\n\nReturn JSON:\n\x7b\n  \"sql\": \"...\",\n  \"confidence\": 0.0,\n  \"assumptions\": [\"...\"],\n  \"needs_clarification\": false,\n  \"clarifying_question\": null\n\x7d\n"

deriving instance DecidableEq for Except

/-- The outcome of the controller: the returned triple of the Go function is
folded into res (the error side carries the optional last LLM result the Go
code returns alongside the error), and executed logs the SQL strings
submitted to the Athena executor, in order. -/
structure CtrlOut where
  res : Except (String × Option LLMResult) (LLMResult × Option AthenaResultM)
  executed : List String
deriving DecidableEq

/-- The repair loop of ExecuteWithSelfCorrection.  The bedrock argument
stands for InvokeBedrockClaude on the given prompt, runAthena for
RunAthenaQuery with the ambient options.  The fuel is the remaining number
of fix attempts.  The wrap step reproduces the source faithfully: the
textual dt marker test and the wrap act on cur.SQL, the previous SQL, and
the wrapped value is dead because cur is overwritten with the fixed result
before any later use, while fixed.SQL is what is executed (see C4). -/
def selfCorrectLoop
    (bedrock : String → Except String LLMResult)
    (runAthena : String → Except String AthenaResultM)
    (clock : String) (sqlValidate : ValidateOptions)
    (question schemaText : String) (allowedShopIDs : List String)
    (maxDays : Int) (todayISO timezone : String) :
    Nat → LLMResult → String → CtrlOut
  | 0, cur, lastErr =>
    { res := .error ("athena failed after retries: " ++ lastErr, some cur),
      executed := [] }
  | fuel + 1, cur, lastErr =>
    let prompt := BuildFixPrompt
      { OriginalQuestion := question, SchemaText := schemaText,
        AllowedShopIDs := allowedShopIDs, MaxDaysLookback := maxDays,
        TodayISO := todayISO, Timezone := timezone,
        PreviousSQL := cur.SQL, AthenaError := lastErr }
    match bedrock prompt with
    | .error fe =>
      { res := .error ("bedrock fix attempt failed: " ++ fe, none),
        executed := [] }
    | .ok fixed =>
      if fixed.NeedsClarification then
        { res := .ok (fixed, none), executed := [] }
      else
        match ValidateSQL clock fixed.SQL sqlValidate with
        | .error ve =>
          selfCorrectLoop bedrock runAthena clock sqlValidate question
            schemaText allowedShopIDs maxDays todayISO timezone fuel fixed
            ("fixed sql rejected: " ++ ve)
        | .ok _ =>
          let todayRD := parseRDorZero todayISO.data
          let dtMin := formatRD (todayRD - maxDays)
          let _wrappedCur : LLMResult :=
            if !(containsB "dt >=".data (lowerStr cur.SQL.data)) &&
               !(containsB "dt between".data (lowerStr cur.SQL.data)) then
              { cur with SQL := "SELECT * FROM (" ++ cur.SQL ++
                  ") WHERE dt >= date '" ++ dtMin ++ "'" }
            else cur
          match runAthena fixed.SQL with
          | .ok r2 => { res := .ok (fixed, some r2), executed := [fixed.SQL] }
          | .error e2 =>
            let rest := selfCorrectLoop bedrock runAthena clock sqlValidate
              question schemaText allowedShopIDs maxDays todayISO timezone
              fuel fixed e2
            { res := rest.res, executed := fixed.SQL :: rest.executed }

/-- ExecuteWithSelfCorrection of the controller source file. -/
def ExecuteWithSelfCorrection
    (bedrock : String → Except String LLMResult)
    (runAthena : String → Except String AthenaResultM)
    (clock : String) (sqlValidate : ValidateOptions)
    (question schemaText : String) (allowedShopIDs : List String)
    (maxDays : Int) (todayISO timezone : String)
    (initialLLM : LLMResult) (maxFixAttempts : Int) : CtrlOut :=
  let maxFix : Int := if maxFixAttempts < 0 then 0 else maxFixAttempts
  match ValidateSQL clock initialLLM.SQL sqlValidate with
  | .error ve =>
    { res := .error ("initial sql rejected: " ++ ve, none), executed := [] }
  | .ok _ =>
    match runAthena initialLLM.SQL with
    | .ok res =>
      { res := .ok (initialLLM, some res), executed := [initialLLM.SQL] }
    | .error e =>
      let rest := selfCorrectLoop bedrock runAthena clock sqlValidate
        question schemaText allowedShopIDs maxDays todayISO timezone
        maxFix.toNat initialLLM e
      { res := rest.res, executed := initialLLM.SQL :: rest.executed }

/-! ### Athena result assembly (RunAthenaQuery, results section)

The polling and paging input and output are abstracted into the sequence of
pages the engine would yield; the functions below model the result-assembly
loop of RunAthenaQuery from the point where the query has succeeded. -/

/-- One raw result row: the VarCharValue pointers of the row data. -/
abbrev RowIn := List (Option String)

/-- strconv.ParseInt with base ten and bit size 64: optional sign, at least
one digit, and the value fits a 64-bit signed integer. -/
def parseInt64 (s : Str) : Option Int :=
  match s with
  | [] => none
  | c :: t =>
    let neg := c = '-'
    let ds := if c = '-' || c = '+' then t else c :: t
    if ds = [] then none
    else if ds.all isDigitB then
      let n : Nat := ds.foldl (fun acc d => acc * 10 + digitVal d) 0
      let v : Int := if neg then -(n : Int) else (n : Int)
      if -(2 ^ 63) ≤ v ∧ v ≤ 2 ^ 63 - 1 then some v else none
    else none

/-- Success of strconv.ParseFloat with bit size 64, as a syntax check on
decimal floating literals and the inf, infinity and nan forms (nan without
sign, as in the Go source).  Hexadecimal floats, digit-group underscores and
range errors are outside the modelled fragment; no cell in this development
uses them. -/
def expOk (e : Str) : Bool :=
  let e1 := match e with
    | c :: t => if c = '+' || c = '-' then t else e
    | [] => []
  !e1.isEmpty && e1.all isDigitB

def mantOk (m : Str) : Bool :=
  let ip := m.takeWhile isDigitB
  match m.drop ip.length with
  | [] => !ip.isEmpty
  | c :: fr => c = '.' && fr.all isDigitB && (!ip.isEmpty || !fr.isEmpty)

def floatOk (s : Str) : Bool :=
  match s with
  | [] => false
  | c0 :: _ =>
    let signed := c0 = '+' || c0 = '-'
    let s1 := if signed then s.tail else s
    let ls := lowerStr s1
    if ls = "inf".data || ls = "infinity".data then true
    else if !signed && ls = "nan".data then true
    else
      let m := s1.takeWhile (fun c => !(c = 'e' || c = 'E'))
      let r := s1.drop m.length
      match r with
      | [] => mantOk m
      | _ :: e => mantOk m && expOk e

/-- coerceScalar of the executor: trim, empty to null, try integer, then
real, else keep the trimmed text.  A real is carried as its source text. -/
def coerceScalar (v : String) : CellV :=
  let t := trimStr v.data
  if t = [] then .null
  else
    match parseInt64 t with
    | some i => .intv i
    | none =>
      if floatOk t then .realv (String.mk t) else .strv (String.mk t)

/-- One output row: cells are keyed by column name in column order, cells
beyond the column count are dropped (as in the source loop; duplicate
column names, which a map would merge, are not distinguished here). -/
def rowToMap (cols : List String) (r : RowIn) : List (String × CellV) :=
  r.enum.filterMap fun p =>
    if h : p.1 < cols.length then
      some (cols.get ⟨p.1, h⟩, coerceScalar (p.2.getD ""))
    else none

/-- The page-accumulation loop: append each page, stop after a page when the
accumulated row count exceeds MaxResultRows plus five (the safety break of
the source; exhaustion of the page list is the empty-NextToken break). -/
def athenaGatherAux (maxRows : Int) (acc : List RowIn) :
    List (List RowIn) → List RowIn
  | [] => acc
  | p :: rest =>
    let acc2 := acc ++ p
    if (acc2.length : Int) > maxRows + 5 then acc2
    else athenaGatherAux maxRows acc2 rest

def athenaGather (maxRows : Int) (pages : List (List RowIn)) : List RowIn :=
  athenaGatherAux maxRows [] pages

/-- The row-conversion loop: skip the header row (index zero), stop once
MaxResultRows output rows exist. -/
def athenaProcessAux (cols : List String) (maxRows : Int) (outLen : Nat) :
    List RowIn → List (List (String × CellV))
  | [] => []
  | r :: rest =>
    if (outLen : Int) ≥ maxRows then []
    else rowToMap cols r :: athenaProcessAux cols maxRows (outLen + 1) rest

def athenaRows (cols : List String) (maxRows : Int) (allRows : List RowIn) :
    List (List (String × CellV)) :=
  match allRows with
  | [] => []
  | _ :: rest => athenaProcessAux cols maxRows 0 rest

/-- The MaxResultRows defaulting of RunAthenaQuery: zero becomes 200. -/
def effMaxRows (n : Int) : Int := if n = 0 then 200 else n

/-- The rows returned by RunAthenaQuery given the configured MaxResultRows,
the column names of the metadata, and the page sequence of the engine. -/
def runAthenaRows (maxResultRows : Int) (cols : List String)
    (pages : List (List RowIn)) : List (List (String × CellV)) :=
  let m := effMaxRows maxResultRows
  athenaRows cols m (athenaGather m pages)

/-! ### The result shaper and the ask handler (handlers/ask.go) -/

structure CachedResponse where
  SQL : String
  Columns : List String
  Rows : List (List (String × CellV))
  Assumptions : List String
  Confidence : F64
  ScannedBytes : Int
  ExecMs : Int
  QueryID : String
deriving DecidableEq

/-- The shaped result map of ShapeResult: columns, rows, kind, and for the
scalar shape the single cell (a missing cell and a null cell coincide
here). -/
structure Shaped where
  columns : List String
  rows : List (List (String × CellV))
  kind : String
  value : Option CellV
deriving DecidableEq

/-- ShapeResult of the shaper source file. -/
def ShapeResult (columns : List String) (rows : List (List (String × CellV))) :
    Shaped :=
  match rows, columns with
  | [r], [c] =>
    { columns := columns, rows := rows, kind := "scalar", value := r.lookup c }
  | _, _ =>
    { columns := columns, rows := rows, kind := "table", value := none }

/-- JSON values as far as the response envelopes need them; ns is a
nullable string (a Go string pointer, marshalled as null or a string). -/
inductive JVal where
  | s (v : String)
  | ns (v : Option String)
  | b (v : Bool)
  | i (v : Int)
  | f (v : F64)
  | strs (v : List String)
  | shaped (v : Shaped)
deriving DecidableEq

structure HandlerOut where
  status : Nat
  body : List (String × JVal)
  writes : List (CacheKey × CachedResponse)
deriving DecidableEq

structure AskRequest where
  Question : String
  ShopIDs : List String
deriving DecidableEq

/-- The request environment of one Handle run: the parsed body, the JWT
subject, and the outcomes of the external calls.  The model and executor
calls are response functions of their request strings. -/
structure HandlerEnv where
  body : Option AskRequest
  sub : String
  shopsLookup : Except String (List String)
  schemaText : Except String String
  cacheGet : Except String (Option CachedResponse)
  llmInit : Except String LLMResult
  bedrockFix : String → Except String LLMResult
  runAthena : String → Except String AthenaResultM

/-- The loop of intersectAllowed: keep requested shops (trimmed, original
case) whose lowercased trimmed form is allowed and not yet seen. -/
def intersectAux (allowedSet : List Str) (seen : List Str) :
    List String → List String
  | [] => []
  | r :: rest =>
    let r2 := trimStr r.data
    if r2 = [] then intersectAux allowedSet seen rest
    else
      let k := lowerStr r2
      if !allowedSet.contains k || seen.contains k then
        intersectAux allowedSet seen rest
      else String.mk r2 :: intersectAux allowedSet (k :: seen) rest

def intersectAllowed (requested allowed : List String) : List String :=
  if requested = [] then allowed
  else intersectAux (allowed.map fun a => lowerStr (trimStr a.data)) [] requested

/-- The tail of Handle from the self-correction call on: the athena_failed,
late-clarification and result responses.  Factored out of Handle so the
theorems can case on the controller outcome; ck is the cache key computed
earlier in Handle. -/
def handleRunPhase (ck : CacheKey) (out : CtrlOut) : HandlerOut :=
  match out.res with
  | .error (runErr, finalLLM) =>
    { status := 200,
      body := [("type", .s "athena_failed"), ("error", .s runErr),
        ("last_sql", .s ((finalLLM.map (fun l => l.SQL)).getD "")),
        ("assumptions", .strs ((finalLLM.map (fun l => l.Assumptions)).getD [])),
        ("confidence", .f ((finalLLM.map (fun l => l.Confidence)).getD ⟨0⟩))],
      writes := [] }
  | .ok (finalLLM, none) =>
    if finalLLM.NeedsClarification then
      { status := 200,
        body := [("type", .s "clarification"),
          ("clarifying_question", .ns finalLLM.ClarifyingQuestion),
          ("assumptions", .strs finalLLM.Assumptions),
          ("confidence", .f finalLLM.Confidence)],
        writes := [] }
    else
      -- unreachable: the controller returns a missing Athena result only
      -- together with a clarification (the Go code would dereference nil)
      { status := 500, body := [("error", .s "nil athena result")],
        writes := [] }
  | .ok (finalLLM, some athRes) =>
    { status := 200,
      body := [("type", .s "result"), ("sql", .s finalLLM.SQL),
        ("assumptions", .strs finalLLM.Assumptions),
        ("confidence", .f finalLLM.Confidence),
        ("result", .shaped (ShapeResult athRes.Columns athRes.Rows)),
        ("query_id", .s athRes.QueryExecutionID),
        ("scanned_bytes", .i athRes.ScannedBytes),
        ("exec_ms", .i athRes.ExecutionMs)],
      writes := [(ck,
        { SQL := finalLLM.SQL, Columns := athRes.Columns,
          Rows := athRes.Rows, Assumptions := finalLLM.Assumptions,
          Confidence := finalLLM.Confidence,
          ScannedBytes := athRes.ScannedBytes, ExecMs := athRes.ExecutionMs,
          QueryID := athRes.QueryExecutionID })] }

/-- The phase of Handle after a cache miss: model invocation, the early
clarification branch, validation, and the run phase.  Factored out of
Handle (the source writes this inline) so the outcome lemmas can case on
one phase at a time; the argument values are exactly the let-bound values
of Handle at the call site. -/
def handleLLMPhase (env : HandlerEnv) (clock question schemaText : String)
    (effective : List String) (ck : CacheKey) : HandlerOut :=
  match env.llmInit with
  | .error e =>
    { status := 500,
      body := [("error", .s "bedrock_error"), ("detail", .s e)],
      writes := [] }
  | .ok llmRes =>
    if llmRes.NeedsClarification then
      { status := 200,
        body := [("type", .s "clarification"),
          ("clarifying_question", .ns llmRes.ClarifyingQuestion),
          ("assumptions", .strs llmRes.Assumptions),
          ("confidence", .f llmRes.Confidence)],
        writes := [] }
    else
      let maxDays : Int := 90
      let today := clock
      let tz := "Asia/Ho_Chi_Minh"
      let sqlValidate : ValidateOptions :=
        { AllowedShopIDs := effective, RequireDTFilter := true,
          MaxDaysLookback := maxDays, TodayISO := today }
      match ValidateSQL clock llmRes.SQL sqlValidate with
      | .error ve =>
        { status := 200,
          body := [("type", .s "sql_rejected"), ("reason", .s ve),
            ("model_sql", .s llmRes.SQL),
            ("assumptions", .strs llmRes.Assumptions),
            ("confidence", .f llmRes.Confidence)],
          writes := [] }
      | .ok _ =>
        handleRunPhase ck
          (ExecuteWithSelfCorrection env.bedrockFix env.runAthena clock
            sqlValidate question schemaText effective maxDays today tz
            llmRes 2)

/-- Handle of handlers/ask.go.  The clock argument stands for the local
date read at the start of the request (nlq.TodayISO); the fixed limits of
the source (maxDays 90, two fix attempts, the timezone constant) are
inlined as in the source.  Emptiness of trimmed strings is tested on the
character lists directly. -/
def Handle (env : HandlerEnv) (clock : String) : HandlerOut :=
  match env.body with
  | none =>
    { status := 400, body := [("error", .s "invalid_json")], writes := [] }
  | some body0 =>
    if trimStr body0.Question.data = [] then
      { status := 400, body := [("error", .s "question_required")],
        writes := [] }
    else
      let question := String.mk (trimStr body0.Question.data)
      if trimStr env.sub.data = [] then
        { status := 401, body := [("error", .s "missing_user_sub")],
          writes := [] }
      else
        let sub := String.mk (trimStr env.sub.data)
        match env.shopsLookup with
        | .error e =>
          { status := 500,
            body := [("error", .s "shop_lookup_failed"), ("detail", .s e)],
            writes := [] }
        | .ok allowed0 =>
          if allowed0 = [] then
            { status := 200,
              body := [("type", .s "no_shops"),
                ("error", .s "no shops connected to this user")],
              writes := [] }
          else
            let effective := intersectAllowed body0.ShopIDs allowed0
            if effective = [] then
              { status := 403,
                body := [("error", .s "no_allowed_shops_in_request")],
                writes := [] }
            else
              match env.schemaText with
              | .error e =>
                { status := 500,
                  body := [("error", .s "glue_get_table_failed"),
                    ("detail", .s e)],
                  writes := [] }
              | .ok schemaText =>
                let maxDays : Int := 90
                let today := clock
                let schemaHash := SchemaHash schemaText
                let ck : CacheKey :=
                  { UserSub := sub, Shops := effective, Question := question,
                    TodayISO := today, MaxDays := maxDays,
                    SchemaHash := schemaHash }
                match env.cacheGet with
                | .ok (some cached) =>
                  { status := 200,
                    body := [("type", .s "result"), ("cached", .b true),
                      ("sql", .s cached.SQL),
                      ("assumptions", .strs cached.Assumptions),
                      ("confidence", .f cached.Confidence),
                      ("result", .shaped
                        (ShapeResult cached.Columns cached.Rows)),
                      ("query_id", .s cached.QueryID),
                      ("scanned_bytes", .i cached.ScannedBytes),
                      ("exec_ms", .i cached.ExecMs)],
                    writes := [] }
                | _ => handleLLMPhase env clock question schemaText effective ck

/-- The request reached the model call: body parsed, question and subject
non-blank, tenant lookup succeeded with a non-empty allowlist, the
effective allowlist non-empty, schema load succeeded. -/
def gatesPass (env : HandlerEnv) : Prop :=
  match env.body with
  | none => False
  | some b =>
    trimStr b.Question.data ≠ [] ∧ trimStr env.sub.data ≠ [] ∧
    (match env.shopsLookup with
     | .ok allowed => allowed ≠ [] ∧ intersectAllowed b.ShopIDs allowed ≠ []
     | .error _ => False) ∧
    (match env.schemaText with
     | .ok _ => True
     | .error _ => False)

/-- The cache lookup reported a hit. -/
def isCacheHit (env : HandlerEnv) : Bool :=
  match env.cacheGet with
  | .ok (some _) => true
  | _ => false

/-! ### Concrete inputs used by counterexamples and witnesses -/

def c1Sql : String := "select * from t where shop_id = 'a' or shop_id = 'b'"

def c1Opt : ValidateOptions :=
  { AllowedShopIDs := ["a"], RequireDTFilter := false, MaxDaysLookback := 90,
    TodayISO := "2025-06-30" }

def c2Sql : String :=
  "select shop_id from t where shop_id = 'a' and dt >= date '2025-06-01'"

def c2Opt : ValidateOptions :=
  { AllowedShopIDs := ["a"], RequireDTFilter := true, MaxDaysLookback := 90,
    TodayISO := "2025-06-30" }

def c3Sql : String := "select shop_id, (drop) from t where shop_id = 'a'"

def c3Opt : ValidateOptions :=
  { AllowedShopIDs := ["a"], RequireDTFilter := false, MaxDaysLookback := 90,
    TodayISO := "2025-06-30" }

def c10Sql : String := "select shop_id from t where shop_id = 'evil.example'"

def c10Opt : ValidateOptions :=
  { AllowedShopIDs := [], RequireDTFilter := false, MaxDaysLookback := 90,
    TodayISO := "2025-06-30" }

def c5Key1 : CacheKey :=
  { UserSub := "u", Shops := ["a", "b"], Question := "total revenue",
    TodayISO := "2025-06-30", MaxDays := 90, SchemaHash := "s" }

def c5Key2 : CacheKey := { c5Key1 with Shops := ["b", "a"] }

def c4Opt : ValidateOptions :=
  { AllowedShopIDs := ["a"], RequireDTFilter := true, MaxDaysLookback := 90,
    TodayISO := "2025-06-30" }

/-- Initial SQL of the C4 run: valid (the zero-space lower bound matches the
validator regexp) but lacking the textual markers dt-space-ge and
dt-space-between. -/
def c4S0 : String := "select shop_id from t where shop_id = 'a' and dt>='2025-06-01'"

/-- Fixed SQL returned by the model on the repair attempt: also valid and
also lacking the textual markers. -/
def c4S1 : String := "select shop_id from t where shop_id = 'a' and dt>='2025-06-02'"

def c4Init : LLMResult :=
  { SQL := c4S0, Confidence := ⟨0⟩, Assumptions := [],
    NeedsClarification := false, ClarifyingQuestion := none }

def c4Fixed : LLMResult := { c4Init with SQL := c4S1 }

def c4Bedrock : String → Except String LLMResult := fun _ => .ok c4Fixed

def c4Res : AthenaResultM :=
  { QueryExecutionID := "qid", Columns := [], Rows := [],
    ScannedBytes := 0, ExecutionMs := 0 }

/-- Executor double: the initial SQL fails with an engine error, any other
SQL succeeds. -/
def c4Athena : String → Except String AthenaResultM := fun s =>
  if s = c4S0 then .error "SYNTAX_ERROR: mock failure" else .ok c4Res

def c4Out : CtrlOut :=
  ExecuteWithSelfCorrection c4Bedrock c4Athena "2025-06-30" c4Opt
    "question" "schema" ["a"] 90 "2025-06-30" "Asia/Ho_Chi_Minh" c4Init 2

def c7Bedrock : String → Except String LLMResult := fun _ =>
  .ok { SQL := c4S1, Confidence := ⟨0⟩, Assumptions := [],
        NeedsClarification := false, ClarifyingQuestion := none }

def c7Athena : String → Except String AthenaResultM := fun _ =>
  .error "engine failure"

def c7Out : CtrlOut :=
  ExecuteWithSelfCorrection c7Bedrock c7Athena "2025-06-30" c4Opt
    "question" "schema" ["a"] 90 "2025-06-30" "Asia/Ho_Chi_Minh" c4Init 2

def c8Cols : List String := ["c"]

/-- Two result pages: the header row, then four data cells exercising the
integer, real, empty and text coercions. -/
def c8Pages : List (List RowIn) :=
  [[[some "c"], [some "1"], [some " 2.5 "]], [[some ""], [some "x"]]]

def c6LLM : LLMResult :=
  { SQL := "select shop_id from t where shop_id = 'a' and dt >= date '2025-06-01'",
    Confidence := ⟨0⟩, Assumptions := [], NeedsClarification := false,
    ClarifyingQuestion := none }

/-- An environment in which every stage succeeds at the first attempt and
the cache misses: the handler computes a fresh result. -/
def c6Env : HandlerEnv :=
  { body := some { Question := "total revenue", ShopIDs := [] },
    sub := "user-sub",
    shopsLookup := .ok ["a"],
    schemaText := .ok "DATABASE d",
    cacheGet := .ok none,
    llmInit := .ok c6LLM,
    bedrockFix := fun _ => .error "unused",
    runAthena := fun _ =>
      .ok { QueryExecutionID := "q1", Columns := ["c"],
            Rows := [[("c", .intv 1)]], ScannedBytes := 10,
            ExecutionMs := 5 } }

def c9LLM : LLMResult :=
  { SQL := "", Confidence := ⟨0⟩, Assumptions := [],
    NeedsClarification := true,
    ClarifyingQuestion := some "Which metric defines best?" }

/-- The same environment with the model asking for clarification. -/
def c9Env : HandlerEnv := { c6Env with llmInit := .ok c9LLM }

end TrueProfit

namespace TrueProfit

/-! ### Supporting lemmas -/

theorem containsB_iff (p l : Str) : containsB p l = true ↔ p <:+: l := by
  induction l with
  | nil =>
    simp [containsB, List.isEmpty_iff, List.infix_nil]
  | cons c t ih =>
    simp [containsB, Bool.or_eq_true, List.isPrefixOf_iff_prefix, ih,
      List.infix_cons_iff]

theorem except_error_isOk {ε α : Type} (e : ε) :
    (Except.error e : Except ε α).isOk = false := rfl

theorem except_ok_isOk {ε α : Type} (a : α) :
    (Except.ok a : Except ε α).isOk = true := rfl

theorem infix_dropWhile (q : Char → Bool) (ph : Char) (pt l : Str)
    (hq : q ph = false) (h : ph :: pt <:+: l) :
    ph :: pt <:+: l.dropWhile q := by
  induction l with
  | nil => simp [List.infix_nil] at h
  | cons c t ih =>
    rcases List.infix_cons_iff.1 h with hpre | hinf
    · have hc : ph = c := (List.cons_prefix_cons.1 hpre).1
      subst hc
      simp only [List.dropWhile_cons, hq, Bool.false_eq_true, if_false]
      exact h
    · rw [List.dropWhile_cons]
      by_cases hqc : q c = true
      · rw [hqc]
        simpa using ih hinf
      · rw [Bool.not_eq_true] at hqc
        rw [hqc]
        simpa using h

theorem infix_trimStr (p l : Str) (hne : p ≠ [])
    (hsp : ∀ c ∈ p, isGoSpace c = false) (h : p <:+: l) :
    p <:+: trimStr l := by
  obtain ⟨ph, pt, rfl⟩ : ∃ ph pt, p = ph :: pt := by
    cases p with
    | nil => exact absurd rfl hne
    | cons a b => exact ⟨a, b, rfl⟩
  have h1 : ph :: pt <:+: l.dropWhile isGoSpace :=
    infix_dropWhile isGoSpace ph pt l (hsp ph (by simp)) h
  have h2 : (ph :: pt).reverse <:+: (l.dropWhile isGoSpace).reverse :=
    List.reverse_infix.2 h1
  obtain ⟨rh, rt, hrev⟩ : ∃ rh rt, (ph :: pt).reverse = rh :: rt := by
    cases hc : (ph :: pt).reverse with
    | nil => exact absurd hc (by simp)
    | cons a b => exact ⟨a, b, rfl⟩
  have hrm : rh ∈ ph :: pt := by
    have hmem : rh ∈ (ph :: pt).reverse := by rw [hrev]; simp
    exact List.mem_reverse.mp hmem
  rw [hrev] at h2
  have h3 : rh :: rt <:+: ((l.dropWhile isGoSpace).reverse.dropWhile isGoSpace) :=
    infix_dropWhile isGoSpace rh rt _ (hsp rh hrm) h2
  rw [← hrev] at h3
  have h4 : ph :: pt <:+:
      ((l.dropWhile isGoSpace).reverse.dropWhile isGoSpace).reverse := by
    have := List.reverse_infix.2 h3
    simpa using this
  simpa [trimStr] using h4

theorem infix_lowOf (p : Str) (sql : String) (hmap : lowerStr p = p)
    (hne : p ≠ []) (hsp : ∀ c ∈ p, isGoSpace c = false)
    (h : p <:+: sql.data) : p <:+: lowOf sql := by
  have h1 : p <:+: trimStr sql.data := infix_trimStr p sql.data hne hsp h
  have h2 : p.map toLowerChar <:+: (trimStr sql.data).map toLowerChar :=
    h1.map toLowerChar
  rw [show p.map toLowerChar = p from hmap] at h2
  exact h2

theorem findFirstP_some {α : Type} (f : Option Char → Str → Option α) :
    ∀ (prev : Option Char) (l : Str) (x : α),
      findFirstP f prev l = some x →
      ∃ a t, l = a ++ t ∧ f (lastO prev a) t = some x := by
  intro prev l
  induction l generalizing prev with
  | nil => intro x h; simp [findFirstP] at h
  | cons c t ih =>
    intro x h
    rw [findFirstP] at h
    cases hf : f prev (c :: t) with
    | some y =>
      rw [hf] at h
      refine ⟨[], c :: t, rfl, ?_⟩
      simpa [lastO] using hf ▸ h
    | none =>
      rw [hf] at h
      obtain ⟨a, t2, heq, hfa⟩ := ih (some c) x h
      exact ⟨c :: a, t2, by simp [heq], by simpa [lastO] using hfa⟩

theorem dtPred_ok (low today : Str) (maxD : Int)
    (h : (requireBoundedDTPredicate low today maxD).isOk = true) :
    ∃ todayRD, parseDateRD today = some todayRD ∧
      dtLowerBoundOcc low (todayRD - maxD) := by
  cases hp : parseDateRD today with
  | none => simp [requireBoundedDTPredicate, hp, except_error_isOk] at h
  | some todayRD =>
    refine ⟨todayRD, rfl, ?_⟩
    cases hb : findFirstP matchBetweenAt none low with
    | some stEn =>
      obtain ⟨st, en⟩ := stEn
      cases hps : parseDateRD st with
      | none =>
        simp [requireBoundedDTPredicate, hp, hb, hps, except_error_isOk] at h
      | some sRD =>
        by_cases hlt : sRD < todayRD - maxD
        · simp [requireBoundedDTPredicate, hp, hb, hps, hlt,
            except_error_isOk] at h
        · obtain ⟨a, t, heq, hm⟩ := findFirstP_some matchBetweenAt none low _ hb
          exact Or.inl ⟨a, t, st, en, heq, hm, sRD, hps, le_of_not_lt hlt⟩
    | none =>
      cases hg : findFirstP matchGeAt none low with
      | some st =>
        cases hps : parseDateRD st with
        | none =>
          simp [requireBoundedDTPredicate, hp, hb, hg, hps,
            except_error_isOk] at h
        | some sRD =>
          by_cases hlt : sRD < todayRD - maxD
          · simp [requireBoundedDTPredicate, hp, hb, hg, hps, hlt,
              except_error_isOk] at h
          · obtain ⟨a, t, heq, hm⟩ := findFirstP_some matchGeAt none low _ hg
            exact Or.inr ⟨a, t, st, heq, hm, sRD, hps, le_of_not_lt hlt⟩
      | none =>
        by_cases hw : containsWord "dt".data low = true
        · simp [requireBoundedDTPredicate, hp, hb, hg, hw,
            except_error_isOk] at h
        · simp [requireBoundedDTPredicate, hp, hb, hg, hw,
            except_error_isOk] at h

theorem validate_ok_dt (clock sql : String) (opt : ValidateOptions)
    (hR : opt.RequireDTFilter = true)
    (h : (ValidateSQL clock sql opt).isOk = true) :
    (requireBoundedDTPredicate (lowOf sql) (effToday clock opt).data
      (effMaxDays opt)).isOk = true := by
  simp only [lowOf]
  cases hdt : requireBoundedDTPredicate (lowerStr (trimStr sql.data))
      (effToday clock opt).data (effMaxDays opt) with
  | ok u => exact except_ok_isOk u
  | error e =>
    exfalso
    simp only [ValidateSQL, hR, if_true, hdt] at h
    repeat' split at h
    all_goals simp [except_error_isOk] at h

theorem validate_ok_inv (clock sql : String) (opt : ValidateOptions)
    (h : (ValidateSQL clock sql opt).isOk = true) :
    trimStr sql.data ≠ [] ∧
    containsB ";".data (lowOf sql) = false ∧
    containsB "--".data (lowOf sql) = false ∧
    containsB "/*".data (lowOf sql) = false ∧
    containsB "*/".data (lowOf sql) = false ∧
    ("select".data.isPrefixOf (trimStr (lowOf sql)) ||
      "with".data.isPrefixOf (trimStr (lowOf sql))) = true ∧
    List.find? (fun kw => containsB kw (lowOf sql)) blockList = none := by
  simp only [lowOf]
  by_cases h1 : trimStr sql.data = []
  · exfalso; simp [ValidateSQL, h1, except_error_isOk] at h
  · by_cases h2 : containsB ";".data (lowerStr (trimStr sql.data)) = true
    · exfalso; simp [ValidateSQL, h1, h2, except_error_isOk] at h
    · by_cases h3 : containsB "--".data (lowerStr (trimStr sql.data)) = true
      · exfalso; simp [ValidateSQL, h1, h2, h3, except_error_isOk] at h
      · by_cases h4 : containsB "/*".data (lowerStr (trimStr sql.data)) = true
        · exfalso; simp [ValidateSQL, h1, h2, h3, h4, except_error_isOk] at h
        · by_cases h5 : containsB "*/".data (lowerStr (trimStr sql.data)) = true
          · exfalso
            simp [ValidateSQL, h1, h2, h3, h4, h5, except_error_isOk] at h
          · by_cases h6 : ("select".data.isPrefixOf
                (trimStr (lowerStr (trimStr sql.data))) ||
                "with".data.isPrefixOf
                  (trimStr (lowerStr (trimStr sql.data)))) = true
            · cases h7 : List.find?
                  (fun kw => containsB kw (lowerStr (trimStr sql.data)))
                  blockList with
              | some kw =>
                exfalso
                simp [ValidateSQL, h1, h2, h3, h4, h5, h6, h7,
                  except_error_isOk] at h
              | none =>
                exact ⟨h1, by simpa using h2, by simpa using h3,
                  by simpa using h4, by simpa using h5, h6, rfl⟩
            · exfalso
              simp [ValidateSQL, h1, h2, h3, h4, h5, h6,
                except_error_isOk] at h

theorem validate_ok_shop_empty (clock sql : String) (opt : ValidateOptions)
    (hA : opt.AllowedShopIDs = [])
    (h : (ValidateSQL clock sql opt).isOk = true) :
    containsWord "shop_id".data (lowOf sql) = true := by
  by_cases hw : containsWord "shop_id".data (lowOf sql) = true
  · exact hw
  · exfalso
    simp only [lowOf] at hw
    cases hdtv : (if opt.RequireDTFilter = true then
        requireBoundedDTPredicate (lowerStr (trimStr sql.data))
          (effToday clock opt).data (effMaxDays opt)
      else Except.ok ()) with
    | error e =>
      simp only [ValidateSQL, hdtv, hA] at h
      repeat' split at h
      all_goals simp_all [except_error_isOk]
    | ok u =>
      simp only [ValidateSQL, hdtv, hA] at h
      repeat' split at h
      all_goals simp_all [except_error_isOk]

/-! ### Claim theorems for the validator -/

/-- C1: the claim states that whenever ValidateSQL accepts with a non-empty
allowlist, every quoted shop_id literal of every shop_id equality or IN
predicate is in the allowlist.  The code violates this: the match loop of
requireAllowedShopFilter returns success after checking only the first
matched predicate.  At the input below the SQL carries two equality
predicates with literals a and b, the allowlist is only a, and ValidateSQL
accepts even though b is not allowed. -/
theorem c1_code_bug :
    (ValidateSQL "2025-06-30" c1Sql c1Opt).isOk = true ∧
    findAllShop (lowOf c1Sql) = [([], "a".data), ([], "b".data)] ∧
    (c1Opt.AllowedShopIDs.map (fun v => lowerStr (trimStr v.data))).contains
      "b".data = false := by
  refine ⟨by decide, by decide, by decide⟩

/-- C2: for every SQL accepted by ValidateSQL with RequireDTFilter true, the
lowercased SQL contains a dt predicate of one of the matched forms (BETWEEN
with optional date keyword, or a strict or non-strict lower bound) whose
start date parses and is at least today minus the effective lookback; and
SQL in which no occurrence of either matched form carries such a start date
(in particular SQL where dt appears with no such lower bound, or does not
appear at all) is rejected. -/
theorem c2_dt_bound (clock sql : String) (opt : ValidateOptions)
    (hR : opt.RequireDTFilter = true) :
    ((ValidateSQL clock sql opt).isOk = true →
      ∃ todayRD, parseDateRD (effToday clock opt).data = some todayRD ∧
        dtLowerBoundOcc (lowOf sql) (todayRD - effMaxDays opt)) ∧
    ((∀ todayRD, parseDateRD (effToday clock opt).data = some todayRD →
        ¬ dtLowerBoundOcc (lowOf sql) (todayRD - effMaxDays opt)) →
      (ValidateSQL clock sql opt).isOk = false) := by
  constructor
  · intro h
    exact dtPred_ok _ _ _ (validate_ok_dt clock sql opt hR h)
  · intro hno
    cases hok : (ValidateSQL clock sql opt).isOk with
    | false => rfl
    | true =>
      exfalso
      obtain ⟨todayRD, hp, hocc⟩ :=
        dtPred_ok _ _ _ (validate_ok_dt clock sql opt hR hok)
      exact hno todayRD hp hocc

/-- C2 witness: the theorem applied at a concrete accepted SQL. -/
theorem c2_dt_bound_witness :
    ∃ todayRD, parseDateRD (effToday "2025-06-30" c2Opt).data = some todayRD ∧
      dtLowerBoundOcc (lowOf c2Sql) (todayRD - effMaxDays c2Opt) :=
  (c2_dt_bound "2025-06-30" c2Sql c2Opt rfl).1 (by decide)

/-- C3 counterexample: the claim states accepted SQL contains none of the
forbidden keywords as whole words on word boundaries.  The code only rejects
a keyword immediately followed by a space, so this accepted SQL contains the
whole word drop (delimited by parentheses). -/
theorem c3_counterexample :
    (ValidateSQL "2025-06-30" c3Sql c3Opt).isOk = true ∧
    containsWord "drop".data c3Sql.data = true := by
  refine ⟨by decide, by decide⟩

/-- C3 amended: accepted SQL contains no semicolon, no double dash, and no
comment delimiters anywhere; and its trimmed lowercased form contains no
forbidden keyword immediately followed by a space (a substring check, not a
word-boundary check). -/
theorem c3_amended (clock sql : String) (opt : ValidateOptions)
    (h : (ValidateSQL clock sql opt).isOk = true) :
    ¬ (";".data <:+: sql.data) ∧ ¬ ("--".data <:+: sql.data) ∧
    ¬ ("/*".data <:+: sql.data) ∧ ¬ ("*/".data <:+: sql.data) ∧
    ∀ kw ∈ blockList, containsB kw (lowOf sql) = false := by
  obtain ⟨h1, h2, h3, h4, h5, h6, h7⟩ := validate_ok_inv clock sql opt h
  refine ⟨?_, ?_, ?_, ?_, ?_⟩
  · intro habs
    have hin := containsB_iff ";".data (lowOf sql) |>.mpr
      (infix_lowOf _ sql (by decide) (by decide) (by decide) habs)
    simp [h2] at hin
  · intro habs
    have hin := containsB_iff "--".data (lowOf sql) |>.mpr
      (infix_lowOf _ sql (by decide) (by decide) (by decide) habs)
    simp [h3] at hin
  · intro habs
    have hin := containsB_iff "/*".data (lowOf sql) |>.mpr
      (infix_lowOf _ sql (by decide) (by decide) (by decide) habs)
    simp [h4] at hin
  · intro habs
    have hin := containsB_iff "*/".data (lowOf sql) |>.mpr
      (infix_lowOf _ sql (by decide) (by decide) (by decide) habs)
    simp [h5] at hin
  · intro kw hkw
    have h8 := List.find?_eq_none.mp h7 kw hkw
    simpa using h8

/-- C3 amended witness: the amended theorem applied at a concrete accepted
SQL string. -/
theorem c3_amended_witness :
    ¬ (";".data <:+: c2Sql.data) ∧ ¬ ("--".data <:+: c2Sql.data) ∧
    ¬ ("/*".data <:+: c2Sql.data) ∧ ¬ ("*/".data <:+: c2Sql.data) ∧
    ∀ kw ∈ blockList, containsB kw (lowOf c2Sql) = false :=
  c3_amended "2025-06-30" c2Sql c2Opt (by decide)

/-- C10: with an empty allowlist, ValidateSQL performs no allowlist
membership check at all: acceptance is equivalent to the other checks
passing together with the mere presence of the word-bounded shop_id token,
regardless of which shop_id literals appear. -/
theorem c10_empty_allowlist (clock sql : String) (opt : ValidateOptions)
    (hA : opt.AllowedShopIDs = []) :
    (ValidateSQL clock sql opt).isOk = true ↔
      (trimStr sql.data ≠ [] ∧
       containsB ";".data (lowOf sql) = false ∧
       containsB "--".data (lowOf sql) = false ∧
       containsB "/*".data (lowOf sql) = false ∧
       containsB "*/".data (lowOf sql) = false ∧
       ("select".data.isPrefixOf (trimStr (lowOf sql)) ||
         "with".data.isPrefixOf (trimStr (lowOf sql))) = true ∧
       List.find? (fun kw => containsB kw (lowOf sql)) blockList = none ∧
       (opt.RequireDTFilter = true →
         (requireBoundedDTPredicate (lowOf sql) (effToday clock opt).data
           (effMaxDays opt)).isOk = true) ∧
       containsWord "shop_id".data (lowOf sql) = true) := by
  constructor
  · intro h
    obtain ⟨h1, h2, h3, h4, h5, h6, h7⟩ := validate_ok_inv clock sql opt h
    exact ⟨h1, h2, h3, h4, h5, h6, h7,
      fun hR => validate_ok_dt clock sql opt hR h,
      validate_ok_shop_empty clock sql opt hA h⟩
  · rintro ⟨h1, h2, h3, h4, h5, h6, h7, h8, h9⟩
    simp only [lowOf] at h2 h3 h4 h5 h6 h7 h9
    by_cases hR : opt.RequireDTFilter = true
    · have hdtOk := h8 hR
      cases hdtv : requireBoundedDTPredicate (lowOf sql)
          (effToday clock opt).data (effMaxDays opt) with
      | error e => rw [hdtv] at hdtOk; simp [except_error_isOk] at hdtOk
      | ok u =>
        simp only [lowOf] at hdtv
        simp [ValidateSQL, h1, h2, h3, h4, h5, h6, h7, hA, hR, hdtv, h9,
          except_ok_isOk]
    · have hRf : opt.RequireDTFilter = false := by
        revert hR; cases opt.RequireDTFilter <;> simp
      simp [ValidateSQL, h1, h2, h3, h4, h5, h6, h7, hA, hRf, h9,
        except_ok_isOk]

/-- C10 witness: the equivalence applied at a concrete input with an empty
allowlist and an arbitrary shop_id literal. -/
theorem c10_empty_allowlist_witness :
    (ValidateSQL "2025-06-30" c10Sql c10Opt).isOk = true :=
  (c10_empty_allowlist "2025-06-30" c10Sql c10Opt rfl).mpr (by decide)

/-- C5: the claim states the cache sort key is invariant under permutation
of the allowed-shops list because the key material is built from the sorted
allowlist.  The comments in ShopsKey (stable order for hashing, small sort)
and the specification require a sorted allowlist, but the code joins the
list in given order without sorting, so permuting the shops changes the key
material and the SHA-256 sort key. -/
theorem c5_code_bug :
    List.Perm c5Key2.Shops c5Key1.Shops ∧
    cacheMaterial c5Key1 ≠ cacheMaterial c5Key2 ∧
    MakeCacheSK c5Key1 ≠ MakeCacheSK c5Key2 := by
  refine ⟨by decide, by decide, by decide⟩

/-! ### Claim theorems for the self-correction controller -/

theorem selfCorrectLoop_executed_le
    (bedrock : String → Except String LLMResult)
    (runAthena : String → Except String AthenaResultM)
    (clock : String) (sqlValidate : ValidateOptions)
    (question schemaText : String) (allowedShopIDs : List String)
    (maxDays : Int) (todayISO timezone : String)
    (fuel : Nat) (cur : LLMResult) (lastErr : String) :
    (selfCorrectLoop bedrock runAthena clock sqlValidate question schemaText
      allowedShopIDs maxDays todayISO timezone fuel cur lastErr).executed.length
      ≤ fuel := by
  induction fuel generalizing cur lastErr with
  | zero => simp [selfCorrectLoop]
  | succ n ih =>
    rw [selfCorrectLoop]
    cases bedrock (BuildFixPrompt
      { OriginalQuestion := question, SchemaText := schemaText,
        AllowedShopIDs := allowedShopIDs, MaxDaysLookback := maxDays,
        TodayISO := todayISO, Timezone := timezone,
        PreviousSQL := cur.SQL, AthenaError := lastErr }) with
    | error fe => simp
    | ok fixed =>
      by_cases hclar : fixed.NeedsClarification = true
      · simp [hclar]
      · rw [Bool.not_eq_true] at hclar
        simp only [hclar, Bool.false_eq_true, if_false]
        cases ValidateSQL clock fixed.SQL sqlValidate with
        | error ve => exact Nat.le_succ_of_le (ih fixed _)
        | ok u =>
          cases runAthena fixed.SQL with
          | ok r2 => simp
          | error e2 => simpa using Nat.succ_le_succ (ih fixed e2)

/-- C7: for every choice of model and executor behaviour and every
maxFixAttempts at least zero, the controller submits at most
maxFixAttempts plus one queries to the executor. -/
theorem c7_executor_bound
    (bedrock : String → Except String LLMResult)
    (runAthena : String → Except String AthenaResultM)
    (clock : String) (sqlValidate : ValidateOptions)
    (question schemaText : String) (allowedShopIDs : List String)
    (maxDays : Int) (todayISO timezone : String)
    (initialLLM : LLMResult) (N : Int) (hN : 0 ≤ N) :
    (ExecuteWithSelfCorrection bedrock runAthena clock sqlValidate question
      schemaText allowedShopIDs maxDays todayISO timezone initialLLM
      N).executed.length ≤ N.toNat + 1 := by
  have hclamp : (if N < 0 then (0 : Int) else N) = N := if_neg (not_lt.mpr hN)
  simp only [ExecuteWithSelfCorrection, hclamp]
  cases ValidateSQL clock initialLLM.SQL sqlValidate with
  | error ve => simp
  | ok u =>
    cases runAthena initialLLM.SQL with
    | ok res => simp
    | error e =>
      simpa using Nat.succ_le_succ (selfCorrectLoop_executed_le bedrock
        runAthena clock sqlValidate question schemaText allowedShopIDs
        maxDays todayISO timezone N.toNat initialLLM e)

/-- C7 witness: the bound applied at a concrete run with two fix attempts
in which every execution fails. -/
theorem c7_executor_bound_witness : c7Out.executed.length ≤ 3 := by
  have h := c7_executor_bound c7Bedrock c7Athena "2025-06-30" c4Opt
    "question" "schema" ["a"] 90 "2025-06-30" "Asia/Ho_Chi_Minh" c4Init 2
    (by decide)
  simpa [c7Out] using h

/-- C4: the claim states that when a repair attempt produces validator-
accepted SQL lacking a textual dt lower-bound marker, the SQL submitted to
the executor is that fixed SQL wrapped with the defensive dt bound.  The
code instead tests and wraps the previous SQL and submits the fixed SQL
unwrapped: in the run below the fixed SQL c4S1 is accepted and lacks both
markers, yet the second executed SQL is exactly c4S1 and not its wrap. -/
theorem c4_code_bug :
    (ValidateSQL "2025-06-30" c4S1 c4Opt).isOk = true ∧
    containsB "dt >=".data (lowerStr c4S1.data) = false ∧
    containsB "dt between".data (lowerStr c4S1.data) = false ∧
    c4Out.executed = [c4S0, c4S1] ∧
    c4S1 ≠ "SELECT * FROM (" ++ c4S1 ++ ") WHERE dt >= date '" ++
      formatRD (parseRDorZero "2025-06-30".data - 90) ++ "'" := by
  refine ⟨by decide, by decide, by decide, by decide, by decide⟩

/-! ### Claim theorems for the Athena result assembly -/

theorem athenaProcessAux_eq (cols : List String) (maxRows : Int) (k : Nat)
    (l : List RowIn) :
    athenaProcessAux cols maxRows k l =
      (l.take (maxRows - k).toNat).map (rowToMap cols) := by
  induction l generalizing k with
  | nil => simp [athenaProcessAux]
  | cons r rest ih =>
    rw [athenaProcessAux]
    by_cases hk : (k : Int) ≥ maxRows
    · rw [if_pos hk]
      have h0 : (maxRows - k).toNat = 0 := by omega
      simp [h0]
    · rw [if_neg hk]
      rw [ih (k + 1)]
      have h1 : (maxRows - (k : Int)).toNat =
          (maxRows - ((k : Int) + 1)).toNat + 1 := by omega
      push_cast
      rw [h1]
      simp

/-- C8: the executor result rows are exactly the accumulated engine rows
with the first (header) row dropped, capped at the effective MaxResultRows
(200 when the option is zero) however many rows or pages the engine yields,
each kept cell coerced by coerceScalar; and coerceScalar tries empty to
null, then integer, then real, then keeps the trimmed text. -/
theorem c8_athena_rows (maxResultRows : Int) (cols : List String)
    (pages : List (List RowIn)) :
    (maxResultRows = 0 → effMaxRows maxResultRows = 200) ∧
    runAthenaRows maxResultRows cols pages =
      (((athenaGather (effMaxRows maxResultRows) pages).drop 1).take
        (effMaxRows maxResultRows).toNat).map (rowToMap cols) ∧
    (runAthenaRows maxResultRows cols pages).length ≤
      (effMaxRows maxResultRows).toNat ∧
    (∀ v : String, trimStr v.data = [] → coerceScalar v = CellV.null) ∧
    (∀ v : String, ∀ i : Int, parseInt64 (trimStr v.data) = some i →
      coerceScalar v = CellV.intv i) ∧
    (∀ v : String, trimStr v.data ≠ [] → parseInt64 (trimStr v.data) = none →
      floatOk (trimStr v.data) = true →
      coerceScalar v = CellV.realv (String.mk (trimStr v.data))) ∧
    (∀ v : String, trimStr v.data ≠ [] → parseInt64 (trimStr v.data) = none →
      floatOk (trimStr v.data) = false →
      coerceScalar v = CellV.strv (String.mk (trimStr v.data))) := by
  have hEq : runAthenaRows maxResultRows cols pages =
      (((athenaGather (effMaxRows maxResultRows) pages).drop 1).take
        (effMaxRows maxResultRows).toNat).map (rowToMap cols) := by
    simp only [runAthenaRows]
    cases hg : athenaGather (effMaxRows maxResultRows) pages with
    | nil => simp [athenaRows]
    | cons x rest =>
      simp only [athenaRows, List.drop_succ_cons, List.drop_zero]
      rw [athenaProcessAux_eq cols (effMaxRows maxResultRows) 0 rest]
      norm_num
  refine ⟨fun h0 => by simp [effMaxRows, h0], hEq, ?_, ?_, ?_, ?_, ?_⟩
  · rw [hEq]
    calc ((((athenaGather (effMaxRows maxResultRows) pages).drop 1).take
          (effMaxRows maxResultRows).toNat).map (rowToMap cols)).length
        = (((athenaGather (effMaxRows maxResultRows) pages).drop 1).take
          (effMaxRows maxResultRows).toNat).length := List.length_map _ _
      _ ≤ (effMaxRows maxResultRows).toNat := List.length_take_le _ _
  · intro v hv
    simp [coerceScalar, hv]
  · intro v i hp
    cases ht : trimStr v.data with
    | nil => rw [ht] at hp; simp [parseInt64] at hp
    | cons c cs =>
      rw [ht] at hp
      simp [coerceScalar, ht, hp]
  · intro v hne hp hf
    cases ht : trimStr v.data with
    | nil => exact absurd ht hne
    | cons c cs =>
      rw [ht] at hp hf
      simp [coerceScalar, ht, hp, hf]
  · intro v hne hp hf
    cases ht : trimStr v.data with
    | nil => exact absurd ht hne
    | cons c cs =>
      rw [ht] at hp hf
      simp [coerceScalar, ht, hp, hf]

/-- C8 witness: the theorem applied at the default row cap and at concrete
cells of each coercion class. -/
theorem c8_athena_rows_witness :
    effMaxRows 0 = 200 ∧
    coerceScalar " " = CellV.null ∧
    coerceScalar " 42 " = CellV.intv 42 ∧
    coerceScalar "2.5" = CellV.realv "2.5" ∧
    coerceScalar "x" = CellV.strv "x" :=
  ⟨(c8_athena_rows 0 c8Cols c8Pages).1 rfl,
   (c8_athena_rows 0 c8Cols c8Pages).2.2.2.1 " " (by decide),
   (c8_athena_rows 0 c8Cols c8Pages).2.2.2.2.1 " 42 " 42 (by decide),
   (c8_athena_rows 0 c8Cols c8Pages).2.2.2.2.2.1 "2.5" (by decide)
     (by decide) (by decide),
   (c8_athena_rows 0 c8Cols c8Pages).2.2.2.2.2.2 "x" (by decide)
     (by decide) (by decide)⟩

/-! ### Outcome lemmas for the handler -/

theorem handleRunPhase_cases (ck : CacheKey) (out : CtrlOut) :
    ((handleRunPhase ck out).writes = [] ∧
     (handleRunPhase ck out).body.lookup "type" ≠ some (.s "result") ∧
     (handleRunPhase ck out).body.lookup "cached" = none) ∨
    ((handleRunPhase ck out).body.lookup "type" = some (.s "result") ∧
     (handleRunPhase ck out).body.lookup "cached" = none ∧
     (handleRunPhase ck out).writes ≠ []) := by
  rcases hres : out.res with ⟨runErr, finalLLM⟩ | ⟨finalLLM, athO⟩
  · left
    refine ⟨?_, ?_, ?_⟩ <;> simp [handleRunPhase, hres, List.lookup]
  · cases athO with
    | none =>
      by_cases hcl : finalLLM.NeedsClarification = true
      · left
        refine ⟨?_, ?_, ?_⟩ <;> simp [handleRunPhase, hres, hcl, List.lookup]
      · left
        refine ⟨?_, ?_, ?_⟩ <;> simp [handleRunPhase, hres, hcl, List.lookup]
    | some athRes =>
      right
      refine ⟨?_, ?_, ?_⟩ <;> simp [handleRunPhase, hres, List.lookup]

theorem handleLLMPhase_cases (env : HandlerEnv)
    (clock question schemaText : String) (effective : List String)
    (ck : CacheKey) :
    ((handleLLMPhase env clock question schemaText effective ck).writes = [] ∧
     (handleLLMPhase env clock question schemaText effective
       ck).body.lookup "type" ≠ some (.s "result") ∧
     (handleLLMPhase env clock question schemaText effective
       ck).body.lookup "cached" = none) ∨
    ((handleLLMPhase env clock question schemaText effective
       ck).body.lookup "type" = some (.s "result") ∧
     (handleLLMPhase env clock question schemaText effective
       ck).body.lookup "cached" = none ∧
     (handleLLMPhase env clock question schemaText effective
       ck).writes ≠ []) := by
  cases hl : env.llmInit with
  | error e =>
    left
    refine ⟨?_, ?_, ?_⟩ <;> simp [handleLLMPhase, hl, List.lookup]
  | ok llmRes =>
    by_cases hclar : llmRes.NeedsClarification = true
    · left
      refine ⟨?_, ?_, ?_⟩ <;> simp [handleLLMPhase, hl, hclar, List.lookup]
    · cases hv : ValidateSQL clock llmRes.SQL
        { AllowedShopIDs := effective, RequireDTFilter := true,
          MaxDaysLookback := 90, TodayISO := clock } with
      | error ve =>
        left
        refine ⟨?_, ?_, ?_⟩ <;>
          simp [handleLLMPhase, hl, hclar, hv, List.lookup]
      | ok u =>
        have hEq : handleLLMPhase env clock question schemaText effective ck =
            handleRunPhase ck (ExecuteWithSelfCorrection env.bedrockFix
              env.runAthena clock
              { AllowedShopIDs := effective, RequireDTFilter := true,
                MaxDaysLookback := 90, TodayISO := clock }
              question schemaText effective 90 clock "Asia/Ho_Chi_Minh"
              llmRes 2) := by
          simp [handleLLMPhase, hl, hclar, hv]
        rw [hEq]
        exact handleRunPhase_cases ck _

theorem Handle_cases (env : HandlerEnv) (clock : String) :
    ((Handle env clock).writes = [] ∧
     (Handle env clock).body.lookup "type" ≠ some (.s "result") ∧
     (Handle env clock).body.lookup "cached" = none) ∨
    ((Handle env clock).body.lookup "type" = some (.s "result") ∧
     (Handle env clock).writes = [] ∧
     (Handle env clock).body.lookup "cached" = some (.b true) ∧
     isCacheHit env = true) ∨
    ((Handle env clock).body.lookup "type" = some (.s "result") ∧
     (Handle env clock).body.lookup "cached" = none ∧
     (Handle env clock).writes ≠ [] ∧
     isCacheHit env = false) := by
  cases hb : env.body with
  | none =>
    left
    refine ⟨?_, ?_, ?_⟩ <;> simp [Handle, hb, List.lookup]
  | some b =>
    by_cases hq : trimStr b.Question.data = []
    · left
      refine ⟨?_, ?_, ?_⟩ <;> simp [Handle, hb, hq, List.lookup]
    · by_cases hs : trimStr env.sub.data = []
      · left
        refine ⟨?_, ?_, ?_⟩ <;> simp [Handle, hb, hq, hs, List.lookup]
      · cases hsl : env.shopsLookup with
        | error e =>
          left
          refine ⟨?_, ?_, ?_⟩ <;> simp [Handle, hb, hq, hs, hsl, List.lookup]
        | ok allowed0 =>
          by_cases ha : allowed0 = []
          · left
            refine ⟨?_, ?_, ?_⟩ <;>
              simp [Handle, hb, hq, hs, hsl, ha, List.lookup]
          · by_cases he : intersectAllowed b.ShopIDs allowed0 = []
            · left
              refine ⟨?_, ?_, ?_⟩ <;>
                simp [Handle, hb, hq, hs, hsl, ha, he, List.lookup]
            · cases hst : env.schemaText with
              | error e2 =>
                left
                refine ⟨?_, ?_, ?_⟩ <;>
                  simp [Handle, hb, hq, hs, hsl, ha, he, hst, List.lookup]
              | ok st =>
                cases hcg : env.cacheGet with
                | ok oc =>
                  cases oc with
                  | some cached =>
                    right; left
                    refine ⟨?_, ?_, ?_, ?_⟩ <;>
                      simp [Handle, isCacheHit, hb, hq, hs, hsl, ha, he,
                        hst, hcg, List.lookup]
                  | none =>
                    have hEq : Handle env clock = handleLLMPhase env clock
                        (String.mk (trimStr b.Question.data)) st
                        (intersectAllowed b.ShopIDs allowed0)
                        { UserSub := String.mk (trimStr env.sub.data),
                          Shops := intersectAllowed b.ShopIDs allowed0,
                          Question := String.mk (trimStr b.Question.data),
                          TodayISO := clock, MaxDays := 90,
                          SchemaHash := SchemaHash st } := by
                      simp [Handle, hb, hq, hs, hsl, ha, he, hst, hcg]
                    rw [hEq]
                    rcases handleLLMPhase_cases env clock
                        (String.mk (trimStr b.Question.data)) st
                        (intersectAllowed b.ShopIDs allowed0)
                        { UserSub := String.mk (trimStr env.sub.data),
                          Shops := intersectAllowed b.ShopIDs allowed0,
                          Question := String.mk (trimStr b.Question.data),
                          TodayISO := clock, MaxDays := 90,
                          SchemaHash := SchemaHash st } with
                      ⟨w, t, c⟩ | ⟨t, c, w⟩
                    · exact Or.inl ⟨w, t, c⟩
                    · exact Or.inr (Or.inr ⟨t, c, w, by
                        simp [isCacheHit, hcg]⟩)
                | error ec =>
                  have hEq : Handle env clock = handleLLMPhase env clock
                      (String.mk (trimStr b.Question.data)) st
                      (intersectAllowed b.ShopIDs allowed0)
                      { UserSub := String.mk (trimStr env.sub.data),
                        Shops := intersectAllowed b.ShopIDs allowed0,
                        Question := String.mk (trimStr b.Question.data),
                        TodayISO := clock, MaxDays := 90,
                        SchemaHash := SchemaHash st } := by
                    simp [Handle, hb, hq, hs, hsl, ha, he, hst, hcg]
                  rw [hEq]
                  rcases handleLLMPhase_cases env clock
                      (String.mk (trimStr b.Question.data)) st
                      (intersectAllowed b.ShopIDs allowed0)
                      { UserSub := String.mk (trimStr env.sub.data),
                        Shops := intersectAllowed b.ShopIDs allowed0,
                        Question := String.mk (trimStr b.Question.data),
                        TodayISO := clock, MaxDays := 90,
                        SchemaHash := SchemaHash st } with
                    ⟨w, t, c⟩ | ⟨t, c, w⟩
                  · exact Or.inl ⟨w, t, c⟩
                  · exact Or.inr (Or.inr ⟨t, c, w, by
                      simp [isCacheHit, hcg]⟩)

theorem selfCorrectLoop_ok_none
    (bedrock : String → Except String LLMResult)
    (runAthena : String → Except String AthenaResultM)
    (clock : String) (sqlValidate : ValidateOptions)
    (question schemaText : String) (allowedShopIDs : List String)
    (maxDays : Int) (todayISO timezone : String) (llm : LLMResult)
    (fuel : Nat) (cur : LLMResult) (lastErr : String) :
    (selfCorrectLoop bedrock runAthena clock sqlValidate question schemaText
      allowedShopIDs maxDays todayISO timezone fuel cur lastErr).res =
      .ok (llm, none) →
    llm.NeedsClarification = true := by
  induction fuel generalizing cur lastErr with
  | zero => intro h; simp [selfCorrectLoop] at h
  | succ n ih =>
    intro h
    cases hbr : bedrock (BuildFixPrompt
        { OriginalQuestion := question, SchemaText := schemaText,
          AllowedShopIDs := allowedShopIDs, MaxDaysLookback := maxDays,
          TodayISO := todayISO, Timezone := timezone,
          PreviousSQL := cur.SQL, AthenaError := lastErr }) with
    | error fe => simp [selfCorrectLoop, hbr] at h
    | ok fixed =>
      by_cases hclar : fixed.NeedsClarification = true
      · simp only [selfCorrectLoop, hbr, hclar, if_true] at h
        simp only [Except.ok.injEq, Prod.mk.injEq, and_true] at h
        exact h ▸ hclar
      · rw [Bool.not_eq_true] at hclar
        cases hv : ValidateSQL clock fixed.SQL sqlValidate with
        | error ve =>
          simp only [selfCorrectLoop, hbr, hclar, Bool.false_eq_true,
            if_false, hv] at h
          exact ih fixed _ h
        | ok u =>
          cases hra : runAthena fixed.SQL with
          | ok r2 =>
            simp [selfCorrectLoop, hbr, hclar, hv, hra] at h
          | error e2 =>
            simp only [selfCorrectLoop, hbr, hclar, Bool.false_eq_true,
              if_false, hv, hra] at h
            exact ih fixed e2 h

theorem execSC_ok_none
    (bedrock : String → Except String LLMResult)
    (runAthena : String → Except String AthenaResultM)
    (clock : String) (sqlValidate : ValidateOptions)
    (question schemaText : String) (allowedShopIDs : List String)
    (maxDays : Int) (todayISO timezone : String)
    (initialLLM : LLMResult) (maxFixAttempts : Int) (llm : LLMResult) :
    (ExecuteWithSelfCorrection bedrock runAthena clock sqlValidate question
      schemaText allowedShopIDs maxDays todayISO timezone initialLLM
      maxFixAttempts).res = .ok (llm, none) →
    llm.NeedsClarification = true := by
  intro h
  cases hv : ValidateSQL clock initialLLM.SQL sqlValidate with
  | error ve => simp [ExecuteWithSelfCorrection, hv] at h
  | ok u =>
    cases hra : runAthena initialLLM.SQL with
    | ok res => simp [ExecuteWithSelfCorrection, hv, hra] at h
    | error e =>
      simp only [ExecuteWithSelfCorrection, hv, hra] at h
      exact selfCorrectLoop_ok_none bedrock runAthena clock sqlValidate
        question schemaText allowedShopIDs maxDays todayISO timezone llm
        _ initialLLM e h

/-! ### Claim theorems for the handler -/

/-- C9: a cache entry is written only when the response envelope has type
result; when the model asks for clarification on the initial call the
response has type clarification and nothing is written; every clarification
response writes nothing; and on a repair attempt the controller returns a
missing Athena result only together with a clarification, which the handler
also answers without writing. -/
theorem c9_cache_policy (env : HandlerEnv) (clock : String) :
    ((Handle env clock).writes ≠ [] →
      (Handle env clock).body.lookup "type" = some (.s "result")) ∧
    ((Handle env clock).body.lookup "type" = some (.s "clarification") →
      (Handle env clock).writes = []) ∧
    (∀ r : LLMResult, gatesPass env → isCacheHit env = false →
      env.llmInit = .ok r → r.NeedsClarification = true →
      (Handle env clock).body.lookup "type" = some (.s "clarification") ∧
      (Handle env clock).writes = []) ∧
    (∀ (bedrock : String → Except String LLMResult)
       (runAthena : String → Except String AthenaResultM)
       (clock2 : String) (sqlValidate : ValidateOptions)
       (question schemaText : String) (allowedShopIDs : List String)
       (maxDays : Int) (todayISO timezone : String)
       (initialLLM : LLMResult) (maxFix : Int) (llm : LLMResult),
      (ExecuteWithSelfCorrection bedrock runAthena clock2 sqlValidate
        question schemaText allowedShopIDs maxDays todayISO timezone
        initialLLM maxFix).res = .ok (llm, none) →
      llm.NeedsClarification = true) := by
  refine ⟨?_, ?_, ?_, ?_⟩
  · intro hw
    rcases Handle_cases env clock with ⟨w, t, c⟩ | ⟨t, w, c, hc⟩ |
      ⟨t, c, w, hc⟩
    · exact absurd w hw
    · exact t
    · exact t
  · intro ht
    rcases Handle_cases env clock with ⟨w, t, c⟩ | ⟨t, w, c, hc⟩ |
      ⟨t, c, w, hc⟩
    · exact w
    · rw [ht] at t; simp at t
    · rw [ht] at t; simp at t
  · intro r hg hch hl hcl
    cases hb : env.body with
    | none => simp only [gatesPass, hb] at hg
    | some b =>
      simp only [gatesPass, hb] at hg
      obtain ⟨hq, hsb, hrest, hschema⟩ := hg
      cases hsl : env.shopsLookup with
      | error e => rw [hsl] at hrest; exact absurd hrest (by simp)
      | ok allowed0 =>
        rw [hsl] at hrest
        obtain ⟨ha, he⟩ := hrest
        cases hst : env.schemaText with
        | error e2 => rw [hst] at hschema; exact absurd hschema (by simp)
        | ok st =>
          cases hcg : env.cacheGet with
          | ok oc =>
            cases oc with
            | some cached => simp [isCacheHit, hcg] at hch
            | none =>
              have hEq : Handle env clock =
                  { status := 200,
                    body := [("type", .s "clarification"),
                      ("clarifying_question", .ns r.ClarifyingQuestion),
                      ("assumptions", .strs r.Assumptions),
                      ("confidence", .f r.Confidence)],
                    writes := [] } := by
                simp [Handle, handleLLMPhase, hb, hq, hsb, hsl, ha, he,
                  hst, hcg, hl, hcl]
              rw [hEq]
              exact ⟨rfl, rfl⟩
          | error ec =>
            have hEq : Handle env clock =
                { status := 200,
                  body := [("type", .s "clarification"),
                    ("clarifying_question", .ns r.ClarifyingQuestion),
                    ("assumptions", .strs r.Assumptions),
                    ("confidence", .f r.Confidence)],
                  writes := [] } := by
              simp [Handle, handleLLMPhase, hb, hq, hsb, hsl, ha, he,
                hst, hcg, hl, hcl]
            rw [hEq]
            exact ⟨rfl, rfl⟩
  · intro bedrock runAthena clock2 sqlValidate question schemaText
      allowedShopIDs maxDays todayISO timezone initialLLM maxFix llm h
    exact execSC_ok_none bedrock runAthena clock2 sqlValidate question
      schemaText allowedShopIDs maxDays todayISO timezone initialLLM
      maxFix llm h

/-- C9 witness: the clarification part of the policy applied at a concrete
environment in which the model asks for clarification. -/
theorem c9_cache_policy_witness :
    (Handle c9Env "2025-06-30").body.lookup "type" =
      some (JVal.s "clarification") ∧
    (Handle c9Env "2025-06-30").writes = [] :=
  (c9_cache_policy c9Env "2025-06-30").2.2.1 c9LLM
    (by simp only [gatesPass, c9Env, c6Env]; decide) (by decide) rfl rfl

/-- C6 counterexample: the claim states every envelope of type result
carries a boolean cached field (false on the fresh path).  In a concrete
run in which the cache misses and the first execution succeeds, the handler
returns an envelope of type result with no cached key at all. -/
theorem c6_counterexample :
    (Handle c6Env "2025-06-30").body.lookup "type" = some (JVal.s "result") ∧
    (Handle c6Env "2025-06-30").body.lookup "cached" = none := by
  refine ⟨by decide, by decide⟩

/-- C6 amended: result envelopes served from the cache carry the field
cached with value true; freshly computed result envelopes carry no cached
field at all. -/
theorem c6_amended (env : HandlerEnv) (clock : String)
    (ht : (Handle env clock).body.lookup "type" = some (JVal.s "result")) :
    (isCacheHit env = true →
      (Handle env clock).body.lookup "cached" = some (JVal.b true)) ∧
    (isCacheHit env = false →
      (Handle env clock).body.lookup "cached" = none) := by
  rcases Handle_cases env clock with ⟨w, t, c⟩ | ⟨t, w, c, hc⟩ |
    ⟨t, c, w, hc⟩
  · exact absurd ht t
  · refine ⟨fun _ => c, fun hf => ?_⟩
    rw [hc] at hf
    exact Bool.noConfusion hf
  · refine ⟨fun htt => ?_, fun _ => c⟩
    rw [hc] at htt
    exact Bool.noConfusion htt

/-- C6 amended witness: the amended statement applied at the concrete fresh
run of the counterexample. -/
theorem c6_amended_witness :
    (Handle c6Env "2025-06-30").body.lookup "cached" = none :=
  (c6_amended c6Env "2025-06-30" (by decide)).2 (by decide)

end TrueProfit
